import Mathlib

/-!
Verification of the Concerto cloud-provider load-balancer reconciliation code
(`package concerto_cloud`): a shallow embedding of the API-service layer and of
the provider operations (`EnsureTCPLoadBalancer`, `UpdateTCPLoadBalancer`,
`EnsureTCPLoadBalancerDeleted`), together with theorems about membership
reconciliation, error handling and the remote-call traces the code produces.
-/

namespace Concerto

/-- Concerto compute instance (`ConcertoInstance` in the source). The numeric
capacity fields (`CPUs`, `Memory`, `Storage`) are carried along but play no
role in load-balancer logic. -/
structure ConcertoInstance where
  Id : String
  Name : String
  PublicIP : String
  CPUs : Rat
  Memory : Int
  Storage : Int
  deriving DecidableEq, Repr

/-- Wire shape used for deserializing the instance listing (`Ship`). -/
structure Ship where
  Id : String
  Fqdn : String
  Name : String
  Public_ip : String
  Server_plan_id : String
  Cpus : Rat
  Memory : Int
  Storage : Int
  deriving DecidableEq, Repr

/-- `ConcertoLoadBalancer` from the source. -/
structure ConcertoLoadBalancer where
  Id : String
  Name : String
  FQDN : String
  Port : Int
  NodePort : Int
  Protocol : String
  deriving DecidableEq, Repr

/-- `ConcertoLoadBalancerNode` from the source: one member of a load
balancer, keyed on the wire by its remote-assigned `ID`, carrying the member
address `IP` (`public_ip`). -/
structure ConcertoLoadBalancerNode where
  ID : String
  IP : String
  deriving DecidableEq, Repr

/-- The conversion `Ship` → `ConcertoInstance` done inside `GetInstanceList`. -/
def shipToInstance (s : Ship) : ConcertoInstance :=
  { Id := s.Id, Name := s.Fqdn, PublicIP := s.Public_ip,
    CPUs := s.Cpus, Memory := s.Memory, Storage := s.Storage }

/-- The error values of the package (`concerto_errors.go` and the ad-hoc
`errors.New` / `fmt.Errorf` values constructed in the API service). -/
inductive CError where
  | instanceNotFound
  | loadBalancerNotFound (id : String)
  | lbCreateHTTPError (status : Int) (name : String)
  | lbDeleteError
  | lbRegisterInstanceError
  | lbDeregisterInstanceError
  | unsupportedAffinity
  | unsupportedExternalIP
  | unsupportedNumberOfPorts
  | nodeNotFound (ip : String) (lbId : String)
  | couldNotFindInstance (name : String)
  | decodeError
  | httpListError (status : Int)
  deriving DecidableEq, Repr

/-- One remote HTTP call, as recorded in execution traces.  `postNode` and
`deleteNode` carry the full member record: on the wire `postNode` sends the
node as JSON body and `deleteNode` addresses the node by its `ID` in the URL
path; recording the whole node also keeps the member address visible to the
theorems. -/
inductive RemoteCall where
  | getShips
  | getLBs
  | getNodes (lbId : String)
  | postLB (lb : ConcertoLoadBalancer)
  | postNode (lbId : String) (node : ConcertoLoadBalancerNode)
  | deleteNode (lbId : String) (node : ConcertoLoadBalancerNode)
  | deleteLB (id : String)
  deriving DecidableEq, Repr

/-- Result of a Go function: a value, a returned `error`, or a runtime crash
(nil-pointer dereference / out-of-range index). -/
inductive Outcome (α : Type) where
  | ok (a : α)
  | err (e : CError)
  | crash
  deriving DecidableEq, Repr

/-- The remote Concerto system as observed through the REST API, together
with the per-call HTTP statuses the remote returns for the two member
mutations (letting theorems quantify over remote failures of individual
register/deregister calls).  Listing calls are modelled as succeeding with
the current remote state; `nextId` feeds the remote side's id assignment. -/
structure World where
  ships : List ConcertoInstance
  lbs : List ConcertoLoadBalancer
  nodes : List (String × ConcertoLoadBalancerNode)
  nextId : Nat
  postNodeStatus : String → String → Int
  deleteNodeStatus : String → String → Int

/-- The members currently attached to load balancer `lbId`. -/
def nodesOf (w : World) (lbId : String) : List ConcertoLoadBalancerNode :=
  (w.nodes.filter (fun p => p.1 = lbId)).map (fun p => p.2)

/-- Whether a load balancer with the given id exists remotely (drives the
remote 404 on the nodes listing). -/
def lbExists (w : World) (lbId : String) : Bool :=
  w.lbs.any (fun lb => lb.Id = lbId)

/-- Result triple of one embedded operation: outcome, post-state of the
remote system, and the remote calls issued (in order). -/
abbrev Res (α : Type) : Type := Outcome α × World × List RemoteCall

/-- `GetInstanceList` of `concertoAPIServiceREST` (state-level semantics:
transport succeeds and the payload decodes to the current remote listing;
the 404/decode branches are modelled separately at the REST level below). -/
def GetInstanceList (w : World) : Res (List ConcertoInstance) :=
  (.ok w.ships, w, [.getShips])

/-- `GetInstanceByName`: scans the instance listing for an exact name match;
`cloudprovider.InstanceNotFound` if absent. -/
def GetInstanceByName (name : String) (w : World) : Res ConcertoInstance :=
  match (w.ships.find? (fun i => i.Name = name)) with
  | some i => (.ok i, w, [.getShips])
  | none => (.err .instanceNotFound, w, [.getShips])

/-- `GetInstanceByIP`: scans the instance listing for a `PublicIP` match. -/
def GetInstanceByIP (ip : String) (w : World) : Res ConcertoInstance :=
  match (w.ships.find? (fun i => i.PublicIP = ip)) with
  | some i => (.ok i, w, [.getShips])
  | none => (.err .instanceNotFound, w, [.getShips])

/-- `GetLoadBalancerList`. -/
def GetLoadBalancerList (w : World) : Res (List ConcertoLoadBalancer) :=
  (.ok w.lbs, w, [.getLBs])

/-- `GetLoadBalancerByName`: scans the load-balancer listing; returns
`none` (Go: `nil, nil`) when no load balancer has the name. -/
def GetLoadBalancerByName (name : String) (w : World) :
    Res (Option ConcertoLoadBalancer) :=
  (.ok (w.lbs.find? (fun lb => lb.Name = name)), w, [.getLBs])

/-- `GetLoadBalancerNodes`: GET of the nodes of one load balancer; the remote
answers 404 ("Load balancer not found") when the id is unknown. -/
def GetLoadBalancerNodes (lbId : String) (w : World) :
    Res (List ConcertoLoadBalancerNode) :=
  if lbExists w lbId then (.ok (nodesOf w lbId), w, [.getNodes lbId])
  else (.err (.loadBalancerNotFound lbId), w, [.getNodes lbId])

/-- `GetLoadBalancerNodesAsIPs`: the node listing projected to addresses. -/
def GetLoadBalancerNodesAsIPs (lbId : String) (w : World) : Res (List String) :=
  match GetLoadBalancerNodes lbId w with
  | (.ok nodes, w1, t1) => (.ok (nodes.map (fun n => n.IP)), w1, t1)
  | (.err e, w1, t1) => (.err e, w1, t1)
  | (.crash, w1, t1) => (.crash, w1, t1)

/-- `toNode`: builds the member record POSTed on registration; only the
address is filled in, the `ID` keeps Go's zero value `""`. -/
def toNode (ci : ConcertoInstance) : ConcertoLoadBalancerNode :=
  { ID := "", IP := ci.PublicIP }

/-- `registerInstanceWithLoadBalancer`: resolves the address to an instance,
POSTs `toNode instance`; on HTTP 201 the remote attaches the member (with a
remote-assigned node id), any other status yields
`LoadBalancerRegisterInstanceError`. -/
def registerInstanceWithLoadBalancer (lbId : String) (ip : String) (w : World) :
    Res Unit :=
  match GetInstanceByIP ip w with
  | (.ok inst, w1, t1) =>
    let node := toNode inst
    if w1.postNodeStatus lbId ip = 201 then
      (.ok (), { w1 with
                  nodes := w1.nodes ++ [(lbId, { node with ID := toString w1.nextId })],
                  nextId := w1.nextId + 1 },
        t1 ++ [.postNode lbId node])
    else
      (.err .lbRegisterInstanceError, w1, t1 ++ [.postNode lbId node])
  | (.err e, w1, t1) => (.err e, w1, t1)
  | (.crash, w1, t1) => (.crash, w1, t1)

/-- `RegisterInstancesWithLoadBalancer`: sequential loop over the addresses,
returning at the first failure. -/
def RegisterInstancesWithLoadBalancer (lbId : String) (ips : List String)
    (w : World) : Res Unit :=
  match ips with
  | [] => (.ok (), w, [])
  | ip :: rest =>
    match registerInstanceWithLoadBalancer lbId ip w with
    | (.ok _, w1, t1) =>
      match RegisterInstancesWithLoadBalancer lbId rest w1 with
      | (r, w2, t2) => (r, w2, t1 ++ t2)
    | (.err e, w1, t1) => (.err e, w1, t1)
    | (.crash, w1, t1) => (.crash, w1, t1)

/-- `GetNodeByIP`: finds the member of `lbId` carrying address `ip`. -/
def GetNodeByIP (lbId : String) (ip : String) (w : World) :
    Res ConcertoLoadBalancerNode :=
  match GetLoadBalancerNodes lbId w with
  | (.ok lbNodes, w1, t1) =>
    match lbNodes.find? (fun n => n.IP = ip) with
    | some n => (.ok n, w1, t1)
    | none => (.err (.nodeNotFound ip lbId), w1, t1)
  | (.err e, w1, t1) => (.err e, w1, t1)
  | (.crash, w1, t1) => (.crash, w1, t1)

/-- `deregisterInstanceFromLoadBalancer`: finds the member by address,
DELETEs it by node id; HTTP 200/204 succeed and detach the member, any other
status yields `LoadBalancerDeregisterInstanceError`. -/
def deregisterInstanceFromLoadBalancer (lbId : String) (ip : String)
    (w : World) : Res Unit :=
  match GetNodeByIP lbId ip w with
  | (.ok node, w1, t1) =>
    if w1.deleteNodeStatus lbId node.ID = 200 ∨
        w1.deleteNodeStatus lbId node.ID = 204 then
      (.ok (), { w1 with
                  nodes := w1.nodes.filter
                    (fun p => ¬(p.1 = lbId ∧ p.2.ID = node.ID)) },
        t1 ++ [.deleteNode lbId node])
    else
      (.err .lbDeregisterInstanceError, w1, t1 ++ [.deleteNode lbId node])
  | (.err e, w1, t1) => (.err e, w1, t1)
  | (.crash, w1, t1) => (.crash, w1, t1)

/-- `DeregisterInstancesFromLoadBalancer`: sequential loop over the
addresses, returning at the first failure. -/
def DeregisterInstancesFromLoadBalancer (lbId : String) (ips : List String)
    (w : World) : Res Unit :=
  match ips with
  | [] => (.ok (), w, [])
  | ip :: rest =>
    match deregisterInstanceFromLoadBalancer lbId ip w with
    | (.ok _, w1, t1) =>
      match DeregisterInstancesFromLoadBalancer lbId rest w1 with
      | (r, w2, t2) => (r, w2, t1 ++ t2)
    | (.err e, w1, t1) => (.err e, w1, t1)
    | (.crash, w1, t1) => (.crash, w1, t1)

/-- `DeleteLoadBalancerById`: DELETE of the load balancer; modelled with the
remote answering 204 and dropping every load balancer with that id. -/
def DeleteLoadBalancerById (id : String) (w : World) : Res Unit :=
  (.ok (), { w with lbs := w.lbs.filter (fun lb => ¬ lb.Id = id) },
    [.deleteLB id])

/-- `CreateLoadBalancer`: POSTs the constructed load balancer (FQDN = name,
protocol "tcp", id still Go's zero value); the remote answers 201 with the
record completed by a remote-assigned id, which overwrites the local value. -/
def CreateLoadBalancer (name : String) (port : Int) (nodePort : Int)
    (w : World) : Res ConcertoLoadBalancer :=
  let lb0 : ConcertoLoadBalancer :=
    { Id := "", Name := name, FQDN := name, Port := port,
      NodePort := nodePort, Protocol := "tcp" }
  let lb := { lb0 with Id := toString w.nextId }
  (.ok lb, { w with lbs := w.lbs ++ [lb], nextId := w.nextId + 1 },
    [.postLB lb0])

/-- `api.ServiceAffinity` of the orchestrator API (external to the package):
session-affinity policy requested for the service. -/
inductive ServiceAffinity where
  | None
  | ClientIP
  deriving DecidableEq, Repr

/-- `api.ServicePort`: the fields of the orchestrator port spec that the
package reads (`Port`, `NodePort`). -/
structure ServicePort where
  Port : Int
  NodePort : Int
  deriving DecidableEq, Repr

/-- `api.LoadBalancerIngress` (only the hostname is ever set). -/
structure LoadBalancerIngress where
  Hostname : String
  deriving DecidableEq, Repr

/-- `api.LoadBalancerStatus`. -/
structure LoadBalancerStatus where
  Ingress : List LoadBalancerIngress
  deriving DecidableEq, Repr

/-- `toStatus`: status with a single ingress carrying the FQDN. -/
def toStatus (lb : ConcertoLoadBalancer) : LoadBalancerStatus :=
  { Ingress := [{ Hostname := lb.FQDN }] }

/-- The inner resolution loop of `hostsNamesToIPs`: walks the host names in
order, scanning the instance listing for each; fails at the first name with
no matching instance. -/
def resolveAll (hosts : List String) (instances : List ConcertoInstance) :
    Except CError (List String) :=
  match hosts with
  | [] => .ok []
  | name :: rest =>
    match instances.find? (fun i => i.Name = name) with
    | some inst =>
      match resolveAll rest instances with
      | .ok ips => .ok (inst.PublicIP :: ips)
      | .error e => .error e
    | none => .error (.couldNotFindInstance name)

/-- `hostsNamesToIPs`: one instance listing, then per-name resolution. -/
def hostsNamesToIPs (hosts : List String) (w : World) : Res (List String) :=
  match GetInstanceList w with
  | (.ok instances, w1, t1) =>
    match resolveAll hosts instances with
    | .ok ips => (.ok ips, w1, t1)
    | .error e => (.err e, w1, t1)
  | (.err e, w1, t1) => (.err e, w1, t1)
  | (.crash, w1, t1) => (.crash, w1, t1)

/-- Modelled from the spec: `subtractStringArrays` is called by
`UpdateTCPLoadBalancer` but its definition is not part of the provided
sources; the spec describes it as plain set difference
(`toRemove = actual − desired`, `toAdd = desired − actual`), so it keeps the
elements of `xs` that do not occur in `ys`. -/
def subtractStringArrays (xs ys : List String) : List String :=
  xs.filter (fun x => ¬ x ∈ ys)

/-- `UpdateTCPLoadBalancer`: lookup by name, read actual membership, resolve
desired hosts, then deregister `actual − desired` and register
`desired − actual`.  When the lookup finds no load balancer it returns
`nil, nil`, and the subsequent unguarded `lb.Id` dereference crashes. -/
def UpdateTCPLoadBalancer (name : String) (hosts : List String) (w : World) :
    Res Unit :=
  match GetLoadBalancerByName name w with
  | (.ok olb, w1, t1) =>
    match olb with
    | none => (.crash, w1, t1)
    | some lb =>
      match GetLoadBalancerNodesAsIPs lb.Id w1 with
      | (.ok currentNodes, w2, t2) =>
        match hostsNamesToIPs hosts w2 with
        | (.ok wantedNodes, w3, t3) =>
          let nodesToRemove := subtractStringArrays currentNodes wantedNodes
          let nodesToAdd := subtractStringArrays wantedNodes currentNodes
          match DeregisterInstancesFromLoadBalancer lb.Id nodesToRemove w3 with
          | (.ok _, w4, t4) =>
            match RegisterInstancesWithLoadBalancer lb.Id nodesToAdd w4 with
            | (r, w5, t5) => (r, w5, t1 ++ t2 ++ t3 ++ t4 ++ t5)
          | (.err e, w4, t4) => (.err e, w4, t1 ++ t2 ++ t3 ++ t4)
          | (.crash, w4, t4) => (.crash, w4, t1 ++ t2 ++ t3 ++ t4)
        | (.err e, w3, t3) => (.err e, w3, t1 ++ t2 ++ t3)
        | (.crash, w3, t3) => (.crash, w3, t1 ++ t2 ++ t3)
      | (.err e, w2, t2) => (.err e, w2, t1 ++ t2)
      | (.crash, w2, t2) => (.crash, w2, t1 ++ t2)
  | (.err e, w1, t1) => (.err e, w1, t1)
  | (.crash, w1, t1) => (.crash, w1, t1)

/-- `createTCPLoadBalancer`: creates the load balancer from `ports[0]`
(crashing on an empty slice, as Go indexing would), then, when there are
desired hosts, resolves and registers them. -/
def createTCPLoadBalancer (name : String) (ports : List ServicePort)
    (hosts : List String) (w : World) : Res ConcertoLoadBalancer :=
  match ports with
  | [] => (.crash, w, [])
  | p :: _ =>
    match CreateLoadBalancer name p.Port p.NodePort w with
    | (.ok lb, w1, t1) =>
      if hosts.length > 0 then
        match hostsNamesToIPs hosts w1 with
        | (.ok ipAddresses, w2, t2) =>
          match RegisterInstancesWithLoadBalancer lb.Id ipAddresses w2 with
          | (.ok _, w3, t3) => (.ok lb, w3, t1 ++ t2 ++ t3)
          | (.err e, w3, t3) => (.err e, w3, t1 ++ t2 ++ t3)
          | (.crash, w3, t3) => (.crash, w3, t1 ++ t2 ++ t3)
        | (.err e, w2, t2) => (.err e, w2, t1 ++ t2)
        | (.crash, w2, t2) => (.crash, w2, t1 ++ t2)
      else (.ok lb, w1, t1)
    | (.err e, w1, t1) => (.err e, w1, t1)
    | (.crash, w1, t1) => (.crash, w1, t1)

/-- `EnsureTCPLoadBalancer`: rejects unsupported affinity, explicit external
IP and multi-port inputs (in that order, before any remote call), then
creates or updates according to the name lookup. -/
def EnsureTCPLoadBalancer (name : String) (loadBalancerIP : Option String)
    (ports : List ServicePort) (hosts : List String)
    (affinityType : ServiceAffinity) (w : World) : Res LoadBalancerStatus :=
  if affinityType ≠ ServiceAffinity.None then
    (.err .unsupportedAffinity, w, [])
  else if loadBalancerIP ≠ none then
    (.err .unsupportedExternalIP, w, [])
  else if ports.length ≠ 1 then
    (.err .unsupportedNumberOfPorts, w, [])
  else
    match GetLoadBalancerByName name w with
    | (.ok none, w1, t1) =>
      match createTCPLoadBalancer name ports hosts w1 with
      | (.ok lb, w2, t2) => (.ok (toStatus lb), w2, t1 ++ t2)
      | (.err e, w2, t2) => (.err e, w2, t1 ++ t2)
      | (.crash, w2, t2) => (.crash, w2, t1 ++ t2)
    | (.ok (some lb), w1, t1) =>
      match UpdateTCPLoadBalancer name hosts w1 with
      | (.ok _, w2, t2) => (.ok (toStatus lb), w2, t1 ++ t2)
      | (.err e, w2, t2) => (.err e, w2, t1 ++ t2)
      | (.crash, w2, t2) => (.crash, w2, t1 ++ t2)
    | (.err e, w1, t1) => (.err e, w1, t1)
    | (.crash, w1, t1) => (.crash, w1, t1)

/-- `EnsureTCPLoadBalancerDeleted`: lookup by name; absent names succeed
silently, present ones are deleted by id. -/
def EnsureTCPLoadBalancerDeleted (name : String) (w : World) : Res Unit :=
  match GetLoadBalancerByName name w with
  | (.ok none, w1, t1) => (.ok (), w1, t1)
  | (.ok (some lb), w1, t1) =>
    match DeleteLoadBalancerById lb.Id w1 with
    | (r, w2, t2) => (r, w2, t1 ++ t2)
  | (.err e, w1, t1) => (.err e, w1, t1)
  | (.crash, w1, t1) => (.crash, w1, t1)

/-- Whether a remote call mutates remote state (POST or DELETE). -/
def RemoteCall.isMutating : RemoteCall → Bool
  | .postLB _ => true
  | .postNode _ _ => true
  | .deleteNode _ _ => true
  | .deleteLB _ => true
  | _ => false

/-- Whether a remote call is a member registration (POST of a node). -/
def RemoteCall.isPostNode : RemoteCall → Bool
  | .postNode _ _ => true
  | _ => false

/-- Whether a remote call is a member deregistration (DELETE of a node). -/
def RemoteCall.isDeleteNode : RemoteCall → Bool
  | .deleteNode _ _ => true
  | _ => false

/-- Addresses carried by the member registrations of a trace. -/
def postedIPs (tr : List RemoteCall) : List String :=
  tr.filterMap (fun c => match c with
    | .postNode _ n => some n.IP
    | _ => none)

/-- Addresses carried by the member deregistrations of a trace. -/
def deletedIPs (tr : List RemoteCall) : List String :=
  tr.filterMap (fun c => match c with
    | .deleteNode _ n => some n.IP
    | _ => none)

namespace Rest

/-- REST-level `GetInstanceList`, as a function of the transport response
(`data, status, err := client.Get(...)`) with the payload abstracted by its
decode outcome: transport errors propagate, HTTP 404 yields an empty listing
and no error, otherwise the decoded ships are converted. -/
def GetInstanceList (terr : Option CError) (status : Int)
    (decoded : Except CError (List Ship)) :
    Except CError (List ConcertoInstance) :=
  match terr with
  | some e => .error e
  | none =>
    if status = 404 then .ok []
    else
      match decoded with
      | .error e => .error e
      | .ok ships => .ok (ships.map shipToInstance)

/-- REST-level `GetLoadBalancerNodes`: transport errors propagate, HTTP 404
is the hard error "Load balancer not found", otherwise the decoded nodes are
returned. -/
def GetLoadBalancerNodes (lbId : String) (terr : Option CError) (status : Int)
    (decoded : Except CError (List ConcertoLoadBalancerNode)) :
    Except CError (List ConcertoLoadBalancerNode) :=
  match terr with
  | some e => .error e
  | none =>
    if status = 404 then .error (.loadBalancerNotFound lbId)
    else
      match decoded with
      | .error e => .error e
      | .ok nodes => .ok nodes

end Rest

/-- A remote system with no instances and no load balancers, with the remote
accepting every member mutation. -/
def w0 : World :=
  { ships := [], lbs := [], nodes := [], nextId := 0,
    postNodeStatus := fun _ _ => 201, deleteNodeStatus := fun _ _ => 204 }

/-- Example instances used by the concrete witnesses. -/
def inst1 : ConcertoInstance :=
  { Id := "i1", Name := "host1", PublicIP := "1.2.3.4",
    CPUs := 1, Memory := 1024, Storage := 10 }

def inst2 : ConcertoInstance :=
  { Id := "i2", Name := "host2", PublicIP := "5.6.7.8",
    CPUs := 1, Memory := 1024, Storage := 10 }

def inst3 : ConcertoInstance :=
  { Id := "i3", Name := "host3", PublicIP := "9.9.9.9",
    CPUs := 1, Memory := 1024, Storage := 10 }

/-- Example load balancer used by the concrete witnesses. -/
def lbA : ConcertoLoadBalancer :=
  { Id := "lb1", Name := "myLB", FQDN := "myLB", Port := 80,
    NodePort := 30080, Protocol := "tcp" }

/-- A populated remote system: three instances; one load balancer whose
membership is {1.2.3.4, 5.6.7.8}; remote accepting every mutation. -/
def wA : World :=
  { ships := [inst1, inst2, inst3], lbs := [lbA],
    nodes := [("lb1", { ID := "n1", IP := "1.2.3.4" }),
              ("lb1", { ID := "n2", IP := "5.6.7.8" })],
    nextId := 10,
    postNodeStatus := fun _ _ => 201, deleteNodeStatus := fun _ _ => 204 }

/-- A remote system with one instance and no load balancers. -/
def wB : World :=
  { ships := [inst1], lbs := [], nodes := [], nextId := 0,
    postNodeStatus := fun _ _ => 201, deleteNodeStatus := fun _ _ => 204 }

/-- Like `wA`, but the remote rejects every member DELETE (HTTP 500), so
the deregister phase of an update fails on its first address. -/
def wD : World :=
  { wA with deleteNodeStatus := fun _ _ => 500 }

/-- Like `wA`, but the remote rejects every member POST (HTTP 500), so the
register phase of an update fails on its first address. -/
def wE : World :=
  { wA with postNodeStatus := fun _ _ => 500 }

theorem mem_subtractStringArrays (a : String) (xs ys : List String) :
    a ∈ subtractStringArrays xs ys ↔ (a ∈ xs ∧ ¬ a ∈ ys) := by
  simp [subtractStringArrays]

theorem resolveAll_ok_mem (hosts : List String)
    (instances : List ConcertoInstance) (D : List String)
    (h : resolveAll hosts instances = .ok D) :
    ∀ a ∈ D, ∃ i ∈ instances, i.PublicIP = a := by
  induction hosts generalizing D with
  | nil =>
    simp only [resolveAll] at h
    cases h
    simp
  | cons name rest ih =>
    simp only [resolveAll] at h
    cases hf : instances.find? (fun i => i.Name = name) with
    | none => rw [hf] at h; cases h
    | some inst =>
      rw [hf] at h
      cases hr : resolveAll rest instances with
      | error e => rw [hr] at h; cases h
      | ok ips =>
        rw [hr] at h
        cases h
        intro a ha
        rcases List.mem_cons.mp ha with h1 | h2
        · exact ⟨inst, List.mem_of_find?_eq_some hf, h1.symm⟩
        · exact ih ips hr a h2

/-- Case analysis of one member registration (`registerInstanceWithLoadBalancer`). -/
theorem registerInstance_cases (lbId ip : String) (w : World) :
    (∃ inst, w.ships.find? (fun i => i.PublicIP = ip) = some inst ∧
      inst.PublicIP = ip ∧ inst ∈ w.ships ∧
      ((w.postNodeStatus lbId ip = 201 ∧
        registerInstanceWithLoadBalancer lbId ip w =
          (.ok (), { w with
              nodes := w.nodes ++
                [(lbId, { ID := toString w.nextId, IP := inst.PublicIP })],
              nextId := w.nextId + 1 },
            [.getShips, .postNode lbId { ID := "", IP := inst.PublicIP }])) ∨
       (¬ w.postNodeStatus lbId ip = 201 ∧
        registerInstanceWithLoadBalancer lbId ip w =
          (.err .lbRegisterInstanceError, w,
            [.getShips, .postNode lbId { ID := "", IP := inst.PublicIP }])))) ∨
    (w.ships.find? (fun i => i.PublicIP = ip) = none ∧
      registerInstanceWithLoadBalancer lbId ip w =
        (.err .instanceNotFound, w, [.getShips])) := by
  cases hf : w.ships.find? (fun i => i.PublicIP = ip) with
  | none =>
    right
    exact ⟨rfl, by simp [registerInstanceWithLoadBalancer, GetInstanceByIP, hf]⟩
  | some inst =>
    left
    refine ⟨inst, rfl, by simpa using List.find?_some hf,
      List.mem_of_find?_eq_some hf, ?_⟩
    by_cases hs : w.postNodeStatus lbId ip = 201
    · exact Or.inl ⟨hs,
        by simp [registerInstanceWithLoadBalancer, GetInstanceByIP, hf, toNode, hs]⟩
    · exact Or.inr ⟨hs,
        by simp [registerInstanceWithLoadBalancer, GetInstanceByIP, hf, toNode, hs]⟩

/-- Case analysis of one member deregistration
(`deregisterInstanceFromLoadBalancer`). -/
theorem deregInstance_cases (lbId ip : String) (w : World) :
    (lbExists w lbId = false ∧
      deregisterInstanceFromLoadBalancer lbId ip w =
        (.err (.loadBalancerNotFound lbId), w, [.getNodes lbId])) ∨
    (lbExists w lbId = true ∧
      ((∃ node, (nodesOf w lbId).find? (fun n => n.IP = ip) = some node ∧
        node.IP = ip ∧ node ∈ nodesOf w lbId ∧
        (((w.deleteNodeStatus lbId node.ID = 200 ∨
            w.deleteNodeStatus lbId node.ID = 204) ∧
          deregisterInstanceFromLoadBalancer lbId ip w =
            (.ok (), { w with
                nodes := w.nodes.filter
                  (fun p => ¬(p.1 = lbId ∧ p.2.ID = node.ID)) },
              [.getNodes lbId, .deleteNode lbId node])) ∨
         (¬(w.deleteNodeStatus lbId node.ID = 200 ∨
            w.deleteNodeStatus lbId node.ID = 204) ∧
          deregisterInstanceFromLoadBalancer lbId ip w =
            (.err .lbDeregisterInstanceError, w,
              [.getNodes lbId, .deleteNode lbId node])))) ∨
       ((nodesOf w lbId).find? (fun n => n.IP = ip) = none ∧
        deregisterInstanceFromLoadBalancer lbId ip w =
          (.err (.nodeNotFound ip lbId), w, [.getNodes lbId])))) := by
  cases hex : lbExists w lbId with
  | false =>
    left
    refine ⟨rfl, ?_⟩
    simp [deregisterInstanceFromLoadBalancer, GetNodeByIP,
      GetLoadBalancerNodes, hex]
  | true =>
    right
    refine ⟨rfl, ?_⟩
    cases hf : (nodesOf w lbId).find? (fun n => n.IP = ip) with
    | none =>
      right
      refine ⟨rfl, ?_⟩
      simp [deregisterInstanceFromLoadBalancer, GetNodeByIP,
        GetLoadBalancerNodes, hex, hf]
    | some node =>
      left
      refine ⟨node, rfl, by simpa using List.find?_some hf,
        List.mem_of_find?_eq_some hf, ?_⟩
      by_cases hs : w.deleteNodeStatus lbId node.ID = 200 ∨
          w.deleteNodeStatus lbId node.ID = 204
      · exact Or.inl ⟨hs,
          by simp [deregisterInstanceFromLoadBalancer, GetNodeByIP,
            GetLoadBalancerNodes, hex, hf, hs]⟩
      · exact Or.inr ⟨hs,
          by simp [deregisterInstanceFromLoadBalancer, GetNodeByIP,
            GetLoadBalancerNodes, hex, hf, hs]⟩

/-- Unfolding of the register loop on a successful first element. -/
theorem register_loop_cons_ok (lbId ip : String) (rest : List String)
    (w w1 : World) (t1 : List RemoteCall)
    (h : registerInstanceWithLoadBalancer lbId ip w = (.ok (), w1, t1)) :
    RegisterInstancesWithLoadBalancer lbId (ip :: rest) w =
      ((RegisterInstancesWithLoadBalancer lbId rest w1).1,
       (RegisterInstancesWithLoadBalancer lbId rest w1).2.1,
       t1 ++ (RegisterInstancesWithLoadBalancer lbId rest w1).2.2) := by
  rcases hr : RegisterInstancesWithLoadBalancer lbId rest w1 with ⟨r2, w2, t2⟩
  simp [RegisterInstancesWithLoadBalancer, h, hr]

/-- Unfolding of the deregister loop on a successful first element. -/
theorem dereg_loop_cons_ok (lbId ip : String) (rest : List String)
    (w w1 : World) (t1 : List RemoteCall)
    (h : deregisterInstanceFromLoadBalancer lbId ip w = (.ok (), w1, t1)) :
    DeregisterInstancesFromLoadBalancer lbId (ip :: rest) w =
      ((DeregisterInstancesFromLoadBalancer lbId rest w1).1,
       (DeregisterInstancesFromLoadBalancer lbId rest w1).2.1,
       t1 ++ (DeregisterInstancesFromLoadBalancer lbId rest w1).2.2) := by
  rcases hr : DeregisterInstancesFromLoadBalancer lbId rest w1 with ⟨r2, w2, t2⟩
  simp [DeregisterInstancesFromLoadBalancer, h, hr]

/-- Unfolding of the register loop on a failing first element. -/
theorem register_loop_cons_fail (lbId ip : String) (rest : List String)
    (w w1 : World) (t1 : List RemoteCall) (e : CError)
    (h : registerInstanceWithLoadBalancer lbId ip w = (.err e, w1, t1)) :
    RegisterInstancesWithLoadBalancer lbId (ip :: rest) w = (.err e, w1, t1) := by
  simp [RegisterInstancesWithLoadBalancer, h]

/-- Unfolding of the deregister loop on a failing first element. -/
theorem dereg_loop_cons_fail (lbId ip : String) (rest : List String)
    (w w1 : World) (t1 : List RemoteCall) (e : CError)
    (h : deregisterInstanceFromLoadBalancer lbId ip w = (.err e, w1, t1)) :
    DeregisterInstancesFromLoadBalancer lbId (ip :: rest) w = (.err e, w1, t1) := by
  simp [DeregisterInstancesFromLoadBalancer, h]

/-- A single registration never crashes and only issues the instance listing
GET and one node POST, whose body has an empty id and the requested address. -/
theorem registerInstance_trace_shape (lbId ip : String) (w : World) :
    ∀ c ∈ (registerInstanceWithLoadBalancer lbId ip w).2.2,
      c = .getShips ∨
      ∃ n, c = .postNode lbId n ∧ n.ID = "" ∧ n.IP = ip := by
  rcases registerInstance_cases lbId ip w with
    ⟨inst, hf, hip, hmem, ⟨hs, heq⟩ | ⟨hs, heq⟩⟩ | ⟨hf, heq⟩ <;>
    rw [heq] <;> intro c hc <;> simp at hc
  · rcases hc with h1 | h1
    · exact Or.inl h1
    · exact Or.inr ⟨{ ID := "", IP := inst.PublicIP }, h1, rfl, hip⟩
  · rcases hc with h1 | h1
    · exact Or.inl h1
    · exact Or.inr ⟨{ ID := "", IP := inst.PublicIP }, h1, rfl, hip⟩
  · exact Or.inl hc

/-- A single deregistration only issues the nodes-listing GET and one node
DELETE, of a node carrying the requested address. -/
theorem deregInstance_trace_shape (lbId ip : String) (w : World) :
    ∀ c ∈ (deregisterInstanceFromLoadBalancer lbId ip w).2.2,
      c = .getNodes lbId ∨
      ∃ n, c = .deleteNode lbId n ∧ n.IP = ip := by
  rcases deregInstance_cases lbId ip w with ⟨hex, heq⟩ |
    ⟨hex, ⟨node, hf, hip, hmem, ⟨hs, heq⟩ | ⟨hs, heq⟩⟩ | ⟨hf, heq⟩⟩ <;>
    rw [heq] <;> intro c hc <;> simp at hc
  · exact Or.inl hc
  · rcases hc with h1 | h1
    · exact Or.inl h1
    · exact Or.inr ⟨node, h1, hip⟩
  · rcases hc with h1 | h1
    · exact Or.inl h1
    · exact Or.inr ⟨node, h1, hip⟩
  · exact Or.inl hc

/-- Every call issued by the register loop is the instance-listing GET or a
node POST to the given load balancer with an empty id in the body. -/
theorem register_loop_trace_shape (lbId : String) (ips : List String)
    (w : World) :
    ∀ c ∈ (RegisterInstancesWithLoadBalancer lbId ips w).2.2,
      c = .getShips ∨ ∃ n, c = .postNode lbId n ∧ n.ID = "" := by
  induction ips generalizing w with
  | nil => intro c hc; simp [RegisterInstancesWithLoadBalancer] at hc
  | cons ip rest ih =>
    intro c hc
    rcases hr : registerInstanceWithLoadBalancer lbId ip w with ⟨r1, w1, t1⟩
    have hshape := registerInstance_trace_shape lbId ip w
    rw [hr] at hshape
    cases r1 with
    | ok a =>
      rw [register_loop_cons_ok lbId ip rest w w1 t1 (by rw [hr])] at hc
      rcases List.mem_append.mp hc with h1 | h1
      · rcases hshape c h1 with h2 | ⟨n, h2, h3, _⟩
        · exact Or.inl h2
        · exact Or.inr ⟨n, h2, h3⟩
      · exact ih w1 c h1
    | err e =>
      rw [register_loop_cons_fail lbId ip rest w w1 t1 e hr] at hc
      rcases hshape c hc with h2 | ⟨n, h2, h3, _⟩
      · exact Or.inl h2
      · exact Or.inr ⟨n, h2, h3⟩
    | crash =>
      exact absurd hr (by
        rcases registerInstance_cases lbId ip w with
          ⟨inst, hf, hip, hmem, ⟨hs, heq⟩ | ⟨hs, heq⟩⟩ | ⟨hf, heq⟩ <;>
          simp [heq])

/-- Every call issued by the deregister loop is the nodes-listing GET or a
node DELETE on the given load balancer. -/
theorem dereg_loop_trace_shape (lbId : String) (ips : List String)
    (w : World) :
    ∀ c ∈ (DeregisterInstancesFromLoadBalancer lbId ips w).2.2,
      c = .getNodes lbId ∨ ∃ n, c = .deleteNode lbId n := by
  induction ips generalizing w with
  | nil => intro c hc; simp [DeregisterInstancesFromLoadBalancer] at hc
  | cons ip rest ih =>
    intro c hc
    rcases hr : deregisterInstanceFromLoadBalancer lbId ip w with ⟨r1, w1, t1⟩
    have hshape := deregInstance_trace_shape lbId ip w
    rw [hr] at hshape
    cases r1 with
    | ok a =>
      rw [dereg_loop_cons_ok lbId ip rest w w1 t1 (by rw [hr])] at hc
      rcases List.mem_append.mp hc with h1 | h1
      · rcases hshape c h1 with h2 | ⟨n, h2, _⟩
        · exact Or.inl h2
        · exact Or.inr ⟨n, h2⟩
      · exact ih w1 c h1
    | err e =>
      rw [dereg_loop_cons_fail lbId ip rest w w1 t1 e hr] at hc
      rcases hshape c hc with h2 | ⟨n, h2, _⟩
      · exact Or.inl h2
      · exact Or.inr ⟨n, h2⟩
    | crash =>
      exact absurd hr (by
        rcases deregInstance_cases lbId ip w with ⟨hex, heq⟩ |
          ⟨hex, ⟨node, hf, hip, hmem, ⟨hs, heq⟩ | ⟨hs, heq⟩⟩ | ⟨hf, heq⟩⟩ <;>
          simp [heq])

/-- The register loop never issues a member DELETE. -/
theorem register_loop_no_deletes (lbId : String) (ips : List String)
    (w : World) :
    deletedIPs (RegisterInstancesWithLoadBalancer lbId ips w).2.2 = [] := by
  rw [deletedIPs, List.filterMap_eq_nil_iff]
  intro c hc
  rcases register_loop_trace_shape lbId ips w c hc with h | ⟨n, h, _⟩ <;> simp [h]

/-- The deregister loop never issues a member POST. -/
theorem dereg_loop_no_posts (lbId : String) (ips : List String) (w : World) :
    postedIPs (DeregisterInstancesFromLoadBalancer lbId ips w).2.2 = [] := by
  rw [postedIPs, List.filterMap_eq_nil_iff]
  intro c hc
  rcases dereg_loop_trace_shape lbId ips w c hc with h | ⟨n, h⟩ <;> simp [h]

/-- A successful register loop POSTs exactly the requested addresses, in
order. -/
theorem register_loop_ok_trace (lbId : String) (ips : List String) (w : World)
    (h : (RegisterInstancesWithLoadBalancer lbId ips w).1 = .ok ()) :
    postedIPs (RegisterInstancesWithLoadBalancer lbId ips w).2.2 = ips := by
  induction ips generalizing w with
  | nil => simp [RegisterInstancesWithLoadBalancer, postedIPs]
  | cons ip rest ih =>
    rcases registerInstance_cases lbId ip w with
      ⟨inst, hf, hip, hmem, ⟨hs, heq⟩ | ⟨hs, heq⟩⟩ | ⟨hf, heq⟩
    · rw [register_loop_cons_ok lbId ip rest w _ _ heq] at h ⊢
      simp only [postedIPs, List.filterMap_append] at ih ⊢
      rw [ih _ h]
      simp [postedIPs, hip]
    · rw [register_loop_cons_fail lbId ip rest w _ _ _ heq] at h
      cases h
    · rw [register_loop_cons_fail lbId ip rest w _ _ _ heq] at h
      cases h

/-- A successful deregister loop DELETEs members carrying exactly the
requested addresses, in order. -/
theorem dereg_loop_ok_trace (lbId : String) (ips : List String) (w : World)
    (h : (DeregisterInstancesFromLoadBalancer lbId ips w).1 = .ok ()) :
    deletedIPs (DeregisterInstancesFromLoadBalancer lbId ips w).2.2 = ips := by
  induction ips generalizing w with
  | nil => simp [DeregisterInstancesFromLoadBalancer, deletedIPs]
  | cons ip rest ih =>
    rcases deregInstance_cases lbId ip w with ⟨hex, heq⟩ |
      ⟨hex, ⟨node, hf, hip, hmem, ⟨hs, heq⟩ | ⟨hs, heq⟩⟩ | ⟨hf, heq⟩⟩
    · rw [dereg_loop_cons_fail lbId ip rest w _ _ _ heq] at h
      cases h
    · rw [dereg_loop_cons_ok lbId ip rest w _ _ heq] at h ⊢
      simp only [deletedIPs, List.filterMap_append] at ih ⊢
      rw [ih _ h]
      simp [deletedIPs, hip]
    · rw [dereg_loop_cons_fail lbId ip rest w _ _ _ heq] at h
      cases h
    · rw [dereg_loop_cons_fail lbId ip rest w _ _ _ heq] at h
      cases h

/-- First-failure behaviour of the register loop: a failing run splits the
address list into a fully processed prefix, the failing address whose error
is returned, and an untouched remainder contributing nothing to the trace. -/
theorem register_loop_err_decomp (lbId : String) (ips : List String)
    (w : World) (e : CError)
    (h : (RegisterInstancesWithLoadBalancer lbId ips w).1 = .err e) :
    ∃ pre bad post, ips = pre ++ bad :: post ∧
      (RegisterInstancesWithLoadBalancer lbId pre w).1 = .ok () ∧
      (registerInstanceWithLoadBalancer lbId bad
        (RegisterInstancesWithLoadBalancer lbId pre w).2.1).1 = .err e ∧
      (RegisterInstancesWithLoadBalancer lbId ips w).2.2 =
        (RegisterInstancesWithLoadBalancer lbId pre w).2.2 ++
        (registerInstanceWithLoadBalancer lbId bad
          (RegisterInstancesWithLoadBalancer lbId pre w).2.1).2.2 := by
  induction ips generalizing w with
  | nil => simp [RegisterInstancesWithLoadBalancer] at h
  | cons ip rest ih =>
    rcases hr : registerInstanceWithLoadBalancer lbId ip w with ⟨r1, w1, t1⟩
    cases r1 with
    | ok a =>
      have hcons := register_loop_cons_ok lbId ip rest w w1 t1 (by rw [hr])
      rw [hcons] at h
      rcases ih w1 h with ⟨pre, bad, post, hsplit, hok, hbad, htr⟩
      refine ⟨ip :: pre, bad, post, by rw [hsplit]; rfl, ?_, ?_, ?_⟩
      · rw [register_loop_cons_ok lbId ip pre w w1 t1 (by rw [hr])]
        exact hok
      · rw [register_loop_cons_ok lbId ip pre w w1 t1 (by rw [hr])]
        exact hbad
      · rw [hcons, register_loop_cons_ok lbId ip pre w w1 t1 (by rw [hr])]
        simp only [htr, List.append_assoc]
    | err e2 =>
      have hcons := register_loop_cons_fail lbId ip rest w w1 t1 e2 hr
      rw [hcons] at h
      cases h
      refine ⟨[], ip, rest, rfl, rfl, ?_, ?_⟩
      · have : (RegisterInstancesWithLoadBalancer lbId [] w).2.1 = w := rfl
        rw [this, hr]
      · have : (RegisterInstancesWithLoadBalancer lbId [] w).2.1 = w := rfl
        rw [hcons, this, hr]
        rfl
    | crash =>
      exact absurd hr (by
        rcases registerInstance_cases lbId ip w with
          ⟨inst, hf, hip, hmem, ⟨hs, heq⟩ | ⟨hs, heq⟩⟩ | ⟨hf, heq⟩ <;>
          simp [heq])

/-- First-failure behaviour of the deregister loop. -/
theorem dereg_loop_err_decomp (lbId : String) (ips : List String)
    (w : World) (e : CError)
    (h : (DeregisterInstancesFromLoadBalancer lbId ips w).1 = .err e) :
    ∃ pre bad post, ips = pre ++ bad :: post ∧
      (DeregisterInstancesFromLoadBalancer lbId pre w).1 = .ok () ∧
      (deregisterInstanceFromLoadBalancer lbId bad
        (DeregisterInstancesFromLoadBalancer lbId pre w).2.1).1 = .err e ∧
      (DeregisterInstancesFromLoadBalancer lbId ips w).2.2 =
        (DeregisterInstancesFromLoadBalancer lbId pre w).2.2 ++
        (deregisterInstanceFromLoadBalancer lbId bad
          (DeregisterInstancesFromLoadBalancer lbId pre w).2.1).2.2 := by
  induction ips generalizing w with
  | nil => simp [DeregisterInstancesFromLoadBalancer] at h
  | cons ip rest ih =>
    rcases hr : deregisterInstanceFromLoadBalancer lbId ip w with ⟨r1, w1, t1⟩
    cases r1 with
    | ok a =>
      have hcons := dereg_loop_cons_ok lbId ip rest w w1 t1 (by rw [hr])
      rw [hcons] at h
      rcases ih w1 h with ⟨pre, bad, post, hsplit, hok, hbad, htr⟩
      refine ⟨ip :: pre, bad, post, by rw [hsplit]; rfl, ?_, ?_, ?_⟩
      · rw [dereg_loop_cons_ok lbId ip pre w w1 t1 (by rw [hr])]
        exact hok
      · rw [dereg_loop_cons_ok lbId ip pre w w1 t1 (by rw [hr])]
        exact hbad
      · rw [hcons, dereg_loop_cons_ok lbId ip pre w w1 t1 (by rw [hr])]
        simp only [htr, List.append_assoc]
    | err e2 =>
      have hcons := dereg_loop_cons_fail lbId ip rest w w1 t1 e2 hr
      rw [hcons] at h
      cases h
      refine ⟨[], ip, rest, rfl, rfl, ?_, ?_⟩
      · have : (DeregisterInstancesFromLoadBalancer lbId [] w).2.1 = w := rfl
        rw [this, hr]
      · have : (DeregisterInstancesFromLoadBalancer lbId [] w).2.1 = w := rfl
        rw [hcons, this, hr]
        rfl
    | crash =>
      exact absurd hr (by
        rcases deregInstance_cases lbId ip w with ⟨hex, heq⟩ |
          ⟨hex, ⟨node, hf, hip, hmem, ⟨hs, heq⟩ | ⟨hs, heq⟩⟩ | ⟨hf, heq⟩⟩ <;>
          simp [heq])

/-- Run of the register loop when the remote accepts every POST and every
address resolves: it succeeds, leaves instances, load balancers and status
behaviour unchanged, and appends exactly the requested addresses to the
membership of the target load balancer. -/
theorem register_loop_run_ok (lbId : String) (ips : List String) (w : World)
    (h201 : ∀ a b, w.postNodeStatus a b = 201)
    (hres : ∀ ip ∈ ips, ∃ i ∈ w.ships, i.PublicIP = ip) :
    (RegisterInstancesWithLoadBalancer lbId ips w).1 = .ok () ∧
    (RegisterInstancesWithLoadBalancer lbId ips w).2.1.ships = w.ships ∧
    (RegisterInstancesWithLoadBalancer lbId ips w).2.1.lbs = w.lbs ∧
    (RegisterInstancesWithLoadBalancer lbId ips w).2.1.postNodeStatus =
      w.postNodeStatus ∧
    (RegisterInstancesWithLoadBalancer lbId ips w).2.1.deleteNodeStatus =
      w.deleteNodeStatus ∧
    (nodesOf (RegisterInstancesWithLoadBalancer lbId ips w).2.1 lbId).map
        (fun n => n.IP) =
      (nodesOf w lbId).map (fun n => n.IP) ++ ips := by
  induction ips generalizing w with
  | nil => simp [RegisterInstancesWithLoadBalancer]
  | cons ip rest ih =>
    obtain ⟨i, hi, hiIP⟩ := hres ip (List.mem_cons_self ip rest)
    have hfs : (w.ships.find? (fun x => x.PublicIP = ip)).isSome :=
      List.find?_isSome.mpr ⟨i, hi, by simp [hiIP]⟩
    obtain ⟨inst, hf⟩ := Option.isSome_iff_exists.mp hfs
    have hip : inst.PublicIP = ip := by simpa using List.find?_some hf
    have heq : registerInstanceWithLoadBalancer lbId ip w =
        (.ok (), { w with
            nodes := w.nodes ++
              [(lbId, { ID := toString w.nextId, IP := inst.PublicIP })],
            nextId := w.nextId + 1 },
          [.getShips, .postNode lbId { ID := "", IP := inst.PublicIP }]) := by
      simp [registerInstanceWithLoadBalancer, GetInstanceByIP, hf, toNode,
        h201 lbId ip]
    have hcons := register_loop_cons_ok lbId ip rest w _ _ heq
    rw [hcons]
    have ihw := ih { w with
        nodes := w.nodes ++
          [(lbId, { ID := toString w.nextId, IP := inst.PublicIP })],
        nextId := w.nextId + 1 }
      (by intro a b; exact h201 a b)
      (by intro ip2 h2; exact hres ip2 (List.mem_cons_of_mem ip h2))
    refine ⟨ihw.1, ihw.2.1, ihw.2.2.1, ihw.2.2.2.1, ihw.2.2.2.2.1, ?_⟩
    rw [ihw.2.2.2.2.2]
    simp [nodesOf, List.filter_append, hip]

/-- Effect of dropping the pairs keyed `(lbId, nid)` on the membership view
of `lbId`: it filters out the members with node id `nid`. -/
theorem nodesOf_filter_delete (l : List (String × ConcertoLoadBalancerNode))
    (lbId nid : String) :
    ((l.filter (fun p => ¬(p.1 = lbId ∧ p.2.ID = nid))).filter
        (fun p => p.1 = lbId)).map (fun p => p.2) =
      ((l.filter (fun p => p.1 = lbId)).map (fun p => p.2)).filter
        (fun n => ¬ n.ID = nid) := by
  rw [List.filter_filter, List.filter_map]
  rw [List.filter_filter]
  apply congrArg
  apply List.filter_congr
  intro p hp
  by_cases h1 : p.1 = lbId <;> by_cases h2 : p.2.ID = nid <;> simp [h1, h2]

/-- Unfolding of `UpdateTCPLoadBalancer` through its three reads, when the
name lookup succeeds and the hosts resolve. -/
theorem update_run (w : World) (name : String) (hosts : List String)
    (lb : ConcertoLoadBalancer) (D : List String)
    (hlb : w.lbs.find? (fun l => l.Name = name) = some lb)
    (hD : resolveAll hosts w.ships = .ok D) :
    UpdateTCPLoadBalancer name hosts w =
      (let M := (nodesOf w lb.Id).map (fun n => n.IP)
       let dereg := DeregisterInstancesFromLoadBalancer lb.Id
         (subtractStringArrays M D) w
       match dereg.1 with
       | .ok _ =>
         let reg := RegisterInstancesWithLoadBalancer lb.Id
           (subtractStringArrays D M) dereg.2.1
         (reg.1, reg.2.1,
           [.getLBs, .getNodes lb.Id, .getShips] ++ dereg.2.2 ++ reg.2.2)
       | .err e => (.err e, dereg.2.1,
           [.getLBs, .getNodes lb.Id, .getShips] ++ dereg.2.2)
       | .crash => (.crash, dereg.2.1,
           [.getLBs, .getNodes lb.Id, .getShips] ++ dereg.2.2)) := by
  have hex : lbExists w lb.Id = true := by
    simp only [lbExists, List.any_eq_true]
    exact ⟨lb, List.mem_of_find?_eq_some hlb, by simp⟩
  rcases hder : DeregisterInstancesFromLoadBalancer lb.Id
      (subtractStringArrays ((nodesOf w lb.Id).map (fun n => n.IP)) D) w
    with ⟨r4, w4, t4⟩
  cases r4 with
  | ok a =>
    rcases hreg : RegisterInstancesWithLoadBalancer lb.Id
        (subtractStringArrays D ((nodesOf w lb.Id).map (fun n => n.IP))) w4
      with ⟨r5, w5, t5⟩
    simp [UpdateTCPLoadBalancer, GetLoadBalancerByName, hlb,
      GetLoadBalancerNodesAsIPs, GetLoadBalancerNodes, hex,
      hostsNamesToIPs, GetInstanceList, hD, hder, hreg]
  | err e =>
    simp [UpdateTCPLoadBalancer, GetLoadBalancerByName, hlb,
      GetLoadBalancerNodesAsIPs, GetLoadBalancerNodes, hex,
      hostsNamesToIPs, GetInstanceList, hD, hder]
  | crash =>
    simp [UpdateTCPLoadBalancer, GetLoadBalancerByName, hlb,
      GetLoadBalancerNodesAsIPs, GetLoadBalancerNodes, hex,
      hostsNamesToIPs, GetInstanceList, hD, hder]

/-- Run of the deregister loop when the remote accepts every DELETE, the
requested addresses are distinct and all present in the membership, and the
membership has distinct addresses and distinct node ids: it succeeds, leaves
instances, load balancers and status behaviour unchanged, and removes from
the membership exactly the members carrying the requested addresses. -/
theorem dereg_loop_run_ok (lbId : String) (ips : List String) : ∀ w : World,
    (∀ a b, w.deleteNodeStatus a b = 204) →
    lbExists w lbId = true →
    (∀ ip ∈ ips, ip ∈ (nodesOf w lbId).map (fun n => n.IP)) →
    ips.Nodup →
    ((nodesOf w lbId).map (fun n => n.IP)).Nodup →
    ((nodesOf w lbId).map (fun n => n.ID)).Nodup →
    (DeregisterInstancesFromLoadBalancer lbId ips w).1 = .ok () ∧
    (DeregisterInstancesFromLoadBalancer lbId ips w).2.1.ships = w.ships ∧
    (DeregisterInstancesFromLoadBalancer lbId ips w).2.1.lbs = w.lbs ∧
    (DeregisterInstancesFromLoadBalancer lbId ips w).2.1.postNodeStatus =
      w.postNodeStatus ∧
    (DeregisterInstancesFromLoadBalancer lbId ips w).2.1.deleteNodeStatus =
      w.deleteNodeStatus ∧
    nodesOf (DeregisterInstancesFromLoadBalancer lbId ips w).2.1 lbId =
      (nodesOf w lbId).filter (fun n => ¬ n.IP ∈ ips) := by
  induction ips with
  | nil =>
    intro w h204 hlb hsub hnd hIPnd hIDnd
    simp [DeregisterInstancesFromLoadBalancer]
  | cons ip rest ih =>
    intro w h204 hlb hsub hnd hIPnd hIDnd
    obtain ⟨node0, hn0mem, hn0ip⟩ :=
      List.mem_map.mp (hsub ip (List.mem_cons_self ip rest))
    have hfs : ((nodesOf w lbId).find? (fun n => n.IP = ip)).isSome :=
      List.find?_isSome.mpr ⟨node0, hn0mem, by simp [hn0ip]⟩
    obtain ⟨node, hf⟩ := Option.isSome_iff_exists.mp hfs
    have hip : node.IP = ip := by simpa using List.find?_some hf
    have hmemN : node ∈ nodesOf w lbId := List.mem_of_find?_eq_some hf
    have heq : deregisterInstanceFromLoadBalancer lbId ip w =
        (.ok (),
          { w with
              nodes := w.nodes.filter
                (fun p => ¬(p.1 = lbId ∧ p.2.ID = node.ID)) },
          [.getNodes lbId, .deleteNode lbId node]) := by
      simp [deregisterInstanceFromLoadBalancer, GetNodeByIP,
        GetLoadBalancerNodes, hlb, hf, h204 lbId node.ID]
    have hN1 : nodesOf
        { w with
            nodes := w.nodes.filter
              (fun p => ¬(p.1 = lbId ∧ p.2.ID = node.ID)) } lbId =
        (nodesOf w lbId).filter (fun n => ¬ n.ID = node.ID) := by
      simpa [nodesOf] using nodesOf_filter_delete w.nodes lbId node.ID
    have hinjID := List.inj_on_of_nodup_map hIDnd
    have hinjIP := List.inj_on_of_nodup_map hIPnd
    have hN2 : nodesOf
        { w with
            nodes := w.nodes.filter
              (fun p => ¬(p.1 = lbId ∧ p.2.ID = node.ID)) } lbId =
        (nodesOf w lbId).filter (fun n => ¬ n.IP = ip) := by
      rw [hN1]
      apply List.filter_congr
      intro n hn
      by_cases hid : n.ID = node.ID
      · have hn2 : n = node := hinjID hn hmemN hid
        simp [hid, hn2, hip]
      · have hnip : ¬ n.IP = ip := by
          intro h2
          exact hid (congrArg ConcertoLoadBalancerNode.ID
            (hinjIP hn hmemN (by rw [h2, hip])))
        simp [hid, hnip]
    have hipnotrest : ¬ ip ∈ rest := (List.nodup_cons.mp hnd).1
    have ihw := ih
      { w with
          nodes := w.nodes.filter
            (fun p => ¬(p.1 = lbId ∧ p.2.ID = node.ID)) }
      (by intro a b; exact h204 a b)
      hlb
      (by
        intro ip2 h2
        obtain ⟨n2, hn2, hip2⟩ :=
          List.mem_map.mp (hsub ip2 (List.mem_cons_of_mem ip h2))
        rw [hN2]
        refine List.mem_map.mpr ⟨n2, List.mem_filter.mpr ⟨hn2, ?_⟩, hip2⟩
        simp only [decide_not, Bool.not_eq_true', decide_eq_false_iff_not]
        rw [hip2]
        intro h3
        exact hipnotrest (h3 ▸ h2))
      (List.nodup_cons.mp hnd).2
      (by
        rw [hN2]
        exact hIPnd.sublist ((List.filter_sublist _).map _))
      (by
        rw [hN2]
        exact hIDnd.sublist ((List.filter_sublist _).map _))
    have hcons := dereg_loop_cons_ok lbId ip rest w _ _ heq
    rw [hcons]
    refine ⟨ihw.1, ihw.2.1, ihw.2.2.1, ihw.2.2.2.1, ihw.2.2.2.2.1, ?_⟩
    rw [ihw.2.2.2.2.2, hN2, List.filter_filter]
    apply List.filter_congr
    intro n hn
    by_cases h1 : n.IP = ip <;> by_cases h2 : n.IP ∈ rest <;>
      simp [h1, h2]

/-- C1: on a name absent from the load-balancer listing (lookup returns no
load balancer and no error), `UpdateTCPLoadBalancer` dereferences the nil
result (`lb.Id`) and crashes instead of returning a NotFound-style error;
the only remote call issued before the crash is the read-only listing. -/
theorem updateOnAbsentNameCrashes :
    (UpdateTCPLoadBalancer "myLB" ["host1"] w0).1 = Outcome.crash ∧
    (UpdateTCPLoadBalancer "myLB" ["host1"] w0).2.2 = [RemoteCall.getLBs] := by
  constructor <;> rfl

/-- C5 counterexample: an input whose external IP is non-nil but whose
affinity is also not `None` gets the affinity error, not the external-IP
error, so "every input with a non-nil explicit IP returns the
unsupported-external-IP error" fails as stated. -/
theorem ensureExternalIPClaimCounterexample :
    (EnsureTCPLoadBalancer "myLB" (some "9.9.9.9")
        [{ Port := 80, NodePort := 30080 }] ["host1"]
        ServiceAffinity.ClientIP w0).1 = .err .unsupportedAffinity ∧
    CError.unsupportedAffinity ≠ CError.unsupportedExternalIP := by
  constructor
  · rfl
  · decide

/-- C5 (amended): affinity ≠ `None` yields the unsupported-affinity error
with zero remote calls; with affinity `None`, a non-nil explicit IP yields
the unsupported-external-IP error with zero remote calls. -/
theorem ensureCapabilityRejection (name : String) (ip : Option String)
    (ports : List ServicePort) (hosts : List String)
    (aff : ServiceAffinity) (w : World) :
    (aff ≠ ServiceAffinity.None →
      (EnsureTCPLoadBalancer name ip ports hosts aff w).1 =
        .err .unsupportedAffinity ∧
      (EnsureTCPLoadBalancer name ip ports hosts aff w).2.2 = []) ∧
    (aff = ServiceAffinity.None → ip ≠ none →
      (EnsureTCPLoadBalancer name ip ports hosts aff w).1 =
        .err .unsupportedExternalIP ∧
      (EnsureTCPLoadBalancer name ip ports hosts aff w).2.2 = []) := by
  constructor
  · intro h
    simp [EnsureTCPLoadBalancer, h]
  · intro h h2
    subst h
    simp [EnsureTCPLoadBalancer, h2]

/-- Witness for C5's amended theorem at concrete inputs. -/
theorem ensureCapabilityRejection_witness :
    ((EnsureTCPLoadBalancer "myLB" none [{ Port := 80, NodePort := 30080 }]
        ["host1"] ServiceAffinity.ClientIP w0).1 =
          .err .unsupportedAffinity ∧
      (EnsureTCPLoadBalancer "myLB" none [{ Port := 80, NodePort := 30080 }]
        ["host1"] ServiceAffinity.ClientIP w0).2.2 = []) ∧
    ((EnsureTCPLoadBalancer "myLB" (some "9.9.9.9")
        [{ Port := 80, NodePort := 30080 }] ["host1"]
        ServiceAffinity.None w0).1 = .err .unsupportedExternalIP ∧
      (EnsureTCPLoadBalancer "myLB" (some "9.9.9.9")
        [{ Port := 80, NodePort := 30080 }] ["host1"]
        ServiceAffinity.None w0).2.2 = []) :=
  ⟨(ensureCapabilityRejection "myLB" none [{ Port := 80, NodePort := 30080 }]
      ["host1"] ServiceAffinity.ClientIP w0).1 (by decide),
    (ensureCapabilityRejection "myLB" (some "9.9.9.9")
      [{ Port := 80, NodePort := 30080 }] ["host1"]
      ServiceAffinity.None w0).2 rfl (by decide)⟩

/-- C6 counterexample: with affinity `None`, nil external IP and an empty
ports list, `EnsureTCPLoadBalancer` returns the ports-count error itself,
with zero remote calls — it does not proceed to the lookup/create/update
logic. -/
theorem ensurePortsCountCounterexample :
    (EnsureTCPLoadBalancer "myLB" none [] ["host1"]
        ServiceAffinity.None w0).1 = .err .unsupportedNumberOfPorts ∧
    (EnsureTCPLoadBalancer "myLB" none [] ["host1"]
        ServiceAffinity.None w0).2.2 = [] := by
  constructor <;> rfl

/-- C6 (amended): `EnsureTCPLoadBalancer` does validate the number of ports:
with affinity `None` and nil external IP, a ports list whose length is not 1
is rejected with `LoadBalancerUnsupportedNumberOfPortsError` before any
remote call. -/
theorem ensureValidatesPortsCount (name : String) (ports : List ServicePort)
    (hosts : List String) (w : World) (h : ports.length ≠ 1) :
    (EnsureTCPLoadBalancer name none ports hosts ServiceAffinity.None w).1 =
      .err .unsupportedNumberOfPorts ∧
    (EnsureTCPLoadBalancer name none ports hosts
      ServiceAffinity.None w).2.2 = [] := by
  simp [EnsureTCPLoadBalancer, h]

/-- Witness for C6's amended theorem at a concrete input. -/
theorem ensureValidatesPortsCount_witness :
    (EnsureTCPLoadBalancer "myLB" none [] ["host1"]
        ServiceAffinity.None w0).1 = .err .unsupportedNumberOfPorts ∧
    (EnsureTCPLoadBalancer "myLB" none [] ["host1"]
      ServiceAffinity.None w0).2.2 = [] :=
  ensureValidatesPortsCount "myLB" [] ["host1"] w0 (by decide)

/-- C7: the two listing endpoints treat HTTP 404 oppositely — the instance
listing turns transport-status 404 into an empty sequence and no error,
while the load-balancer nodes listing turns it into the hard
"Load balancer not found" error, regardless of the payload. -/
theorem listing404Asymmetry :
    (∀ decoded : Except CError (List Ship),
      Rest.GetInstanceList none 404 decoded = .ok []) ∧
    (∀ (lbId : String)
        (decoded : Except CError (List ConcertoLoadBalancerNode)),
      Rest.GetLoadBalancerNodes lbId none 404 decoded =
        .error (.loadBalancerNotFound lbId)) := by
  constructor
  · intro d
    rfl
  · intro lbId d
    rfl

theorem deletedIPs_append (t1 t2 : List RemoteCall) :
    deletedIPs (t1 ++ t2) = deletedIPs t1 ++ deletedIPs t2 :=
  List.filterMap_append t1 t2 _

theorem postedIPs_append (t1 t2 : List RemoteCall) :
    postedIPs (t1 ++ t2) = postedIPs t1 ++ postedIPs t2 :=
  List.filterMap_append t1 t2 _

/-- Every execution of `UpdateTCPLoadBalancer` splits its trace into a part
with no member POST followed by a part with no member DELETE. -/
theorem update_trace_decomp (name : String) (hosts : List String) (w : World) :
    ∃ trA trB, (UpdateTCPLoadBalancer name hosts w).2.2 = trA ++ trB ∧
      (∀ c ∈ trA, c.isPostNode = false) ∧
      (∀ c ∈ trB, c.isDeleteNode = false) := by
  cases hlb : w.lbs.find? (fun l => l.Name = name) with
  | none =>
    refine ⟨[.getLBs], [], ?_, ?_, ?_⟩
    · simp [UpdateTCPLoadBalancer, GetLoadBalancerByName, hlb]
    · intro c hc
      simp at hc
      simp [hc, RemoteCall.isPostNode]
    · intro c hc
      simp at hc
  | some lb =>
    cases hex : lbExists w lb.Id with
    | false =>
      refine ⟨[.getLBs, .getNodes lb.Id], [], ?_, ?_, ?_⟩
      · simp [UpdateTCPLoadBalancer, GetLoadBalancerByName, hlb,
          GetLoadBalancerNodesAsIPs, GetLoadBalancerNodes, hex]
      · intro c hc
        simp at hc
        rcases hc with h | h <;> simp [h, RemoteCall.isPostNode]
      · intro c hc
        simp at hc
    | true =>
      cases hres : resolveAll hosts w.ships with
      | error e =>
        refine ⟨[.getLBs, .getNodes lb.Id, .getShips], [], ?_, ?_, ?_⟩
        · simp [UpdateTCPLoadBalancer, GetLoadBalancerByName, hlb,
            GetLoadBalancerNodesAsIPs, GetLoadBalancerNodes, hex,
            hostsNamesToIPs, GetInstanceList, hres]
        · intro c hc
          simp at hc
          rcases hc with h | h | h <;> simp [h, RemoteCall.isPostNode]
        · intro c hc
          simp at hc
      | ok D =>
        have hrun := update_run w name hosts lb D hlb hres
        rcases hd : DeregisterInstancesFromLoadBalancer lb.Id
            (subtractStringArrays
              ((nodesOf w lb.Id).map (fun n => n.IP)) D) w
          with ⟨r4, w4, t4⟩
        have ht4 := dereg_loop_trace_shape lb.Id
          (subtractStringArrays ((nodesOf w lb.Id).map (fun n => n.IP)) D) w
        rw [hd] at ht4
        have ht4post : ∀ c ∈ t4, c.isPostNode = false := by
          intro c hc
          rcases ht4 c hc with h | ⟨n, h⟩ <;> simp [h, RemoteCall.isPostNode]
        cases r4 with
        | ok a =>
          rcases hr : RegisterInstancesWithLoadBalancer lb.Id
              (subtractStringArrays D
                ((nodesOf w lb.Id).map (fun n => n.IP))) w4
            with ⟨r5, w5, t5⟩
          have ht5 := register_loop_trace_shape lb.Id
            (subtractStringArrays D ((nodesOf w lb.Id).map (fun n => n.IP))) w4
          rw [hr] at ht5
          refine ⟨[.getLBs, .getNodes lb.Id, .getShips] ++ t4, t5, ?_, ?_, ?_⟩
          · rw [hrun]
            simp [hd, hr]
          · intro c hc
            rcases List.mem_append.mp hc with h | h
            · simp at h
              rcases h with h | h | h <;> simp [h, RemoteCall.isPostNode]
            · exact ht4post c h
          · intro c hc
            rcases ht5 c hc with h | ⟨n, h, _⟩ <;>
              simp [h, RemoteCall.isDeleteNode]
        | err e =>
          refine ⟨[.getLBs, .getNodes lb.Id, .getShips] ++ t4, [], ?_, ?_, ?_⟩
          · rw [hrun]
            simp [hd]
          · intro c hc
            rcases List.mem_append.mp hc with h | h
            · simp at h
              rcases h with h | h | h <;> simp [h, RemoteCall.isPostNode]
            · exact ht4post c h
          · intro c hc
            simp at hc
        | crash =>
          refine ⟨[.getLBs, .getNodes lb.Id, .getShips] ++ t4, [], ?_, ?_, ?_⟩
          · rw [hrun]
            simp [hd]
          · intro c hc
            rcases List.mem_append.mp hc with h | h
            · simp at h
              rcases h with h | h | h <;> simp [h, RemoteCall.isPostNode]
            · exact ht4post c h
          · intro c hc
            simp at hc

/-- C4: in every execution of `UpdateTCPLoadBalancer` all member DELETEs
precede every member POST; a failure in the deregister phase makes the whole
call return that error with the trace stopping at the deregister phase and
not a single member POST issued, and a failure in the register phase makes
the whole call return that error with the trace stopping at the register
phase; within either phase the first failing address aborts the loop — its
error is the one returned and the trace contains nothing for the remaining
addresses. -/
theorem updateRemoveBeforeAddAndFirstFailureAborts :
    (∀ (name : String) (hosts : List String) (w : World),
      ∃ trA trB, (UpdateTCPLoadBalancer name hosts w).2.2 = trA ++ trB ∧
        (∀ c ∈ trA, c.isPostNode = false) ∧
        (∀ c ∈ trB, c.isDeleteNode = false)) ∧
    (∀ (name : String) (hosts : List String) (w : World)
        (lb : ConcertoLoadBalancer) (D : List String) (e : CError),
      w.lbs.find? (fun l => l.Name = name) = some lb →
      resolveAll hosts w.ships = .ok D →
      ((DeregisterInstancesFromLoadBalancer lb.Id
          (subtractStringArrays ((nodesOf w lb.Id).map (fun n => n.IP)) D)
          w).1 = .err e →
        (UpdateTCPLoadBalancer name hosts w).1 = .err e ∧
        (UpdateTCPLoadBalancer name hosts w).2.2 =
          [.getLBs, .getNodes lb.Id, .getShips] ++
          (DeregisterInstancesFromLoadBalancer lb.Id
            (subtractStringArrays ((nodesOf w lb.Id).map (fun n => n.IP)) D)
            w).2.2 ∧
        (∀ c ∈ (UpdateTCPLoadBalancer name hosts w).2.2,
          c.isPostNode = false)) ∧
      ((DeregisterInstancesFromLoadBalancer lb.Id
          (subtractStringArrays ((nodesOf w lb.Id).map (fun n => n.IP)) D)
          w).1 = .ok () →
        (RegisterInstancesWithLoadBalancer lb.Id
          (subtractStringArrays D ((nodesOf w lb.Id).map (fun n => n.IP)))
          (DeregisterInstancesFromLoadBalancer lb.Id
            (subtractStringArrays ((nodesOf w lb.Id).map (fun n => n.IP)) D)
            w).2.1).1 = .err e →
        (UpdateTCPLoadBalancer name hosts w).1 = .err e ∧
        (UpdateTCPLoadBalancer name hosts w).2.2 =
          [.getLBs, .getNodes lb.Id, .getShips] ++
          (DeregisterInstancesFromLoadBalancer lb.Id
            (subtractStringArrays ((nodesOf w lb.Id).map (fun n => n.IP)) D)
            w).2.2 ++
          (RegisterInstancesWithLoadBalancer lb.Id
            (subtractStringArrays D ((nodesOf w lb.Id).map (fun n => n.IP)))
            (DeregisterInstancesFromLoadBalancer lb.Id
              (subtractStringArrays ((nodesOf w lb.Id).map (fun n => n.IP)) D)
              w).2.1).2.2)) ∧
    (∀ (lbId : String) (ips : List String) (w : World) (e : CError),
      (DeregisterInstancesFromLoadBalancer lbId ips w).1 = .err e →
      ∃ pre bad post, ips = pre ++ bad :: post ∧
        (DeregisterInstancesFromLoadBalancer lbId pre w).1 = .ok () ∧
        (deregisterInstanceFromLoadBalancer lbId bad
          (DeregisterInstancesFromLoadBalancer lbId pre w).2.1).1 = .err e ∧
        (DeregisterInstancesFromLoadBalancer lbId ips w).2.2 =
          (DeregisterInstancesFromLoadBalancer lbId pre w).2.2 ++
          (deregisterInstanceFromLoadBalancer lbId bad
            (DeregisterInstancesFromLoadBalancer lbId pre w).2.1).2.2) ∧
    (∀ (lbId : String) (ips : List String) (w : World) (e : CError),
      (RegisterInstancesWithLoadBalancer lbId ips w).1 = .err e →
      ∃ pre bad post, ips = pre ++ bad :: post ∧
        (RegisterInstancesWithLoadBalancer lbId pre w).1 = .ok () ∧
        (registerInstanceWithLoadBalancer lbId bad
          (RegisterInstancesWithLoadBalancer lbId pre w).2.1).1 = .err e ∧
        (RegisterInstancesWithLoadBalancer lbId ips w).2.2 =
          (RegisterInstancesWithLoadBalancer lbId pre w).2.2 ++
          (registerInstanceWithLoadBalancer lbId bad
            (RegisterInstancesWithLoadBalancer lbId pre w).2.1).2.2) := by
  refine ⟨update_trace_decomp, ?_, dereg_loop_err_decomp,
    register_loop_err_decomp⟩
  intro name hosts w lb D e hlb hD
  have hrun := update_run w name hosts lb D hlb hD
  constructor
  · intro hder
    rcases hd : DeregisterInstancesFromLoadBalancer lb.Id
        (subtractStringArrays ((nodesOf w lb.Id).map (fun n => n.IP)) D) w
      with ⟨r4, w4, t4⟩
    rw [hd] at hder
    dsimp only at hder
    subst hder
    have ht4shape := dereg_loop_trace_shape lb.Id
      (subtractStringArrays ((nodesOf w lb.Id).map (fun n => n.IP)) D) w
    rw [hd] at ht4shape
    have htr : (UpdateTCPLoadBalancer name hosts w).2.2 =
        [.getLBs, .getNodes lb.Id, .getShips] ++ t4 := by
      rw [hrun]
      simp [hd]
    refine ⟨?_, ?_, ?_⟩
    · rw [hrun]
      simp [hd]
    · rw [htr, hd]
    · intro c hc
      rw [htr] at hc
      rcases List.mem_append.mp hc with h | h
      · simp at h
        rcases h with h | h | h <;> simp [h, RemoteCall.isPostNode]
      · rcases ht4shape c h with h2 | ⟨n, h2⟩ <;>
          simp [h2, RemoteCall.isPostNode]
  · intro hderok hregerr
    rcases hd : DeregisterInstancesFromLoadBalancer lb.Id
        (subtractStringArrays ((nodesOf w lb.Id).map (fun n => n.IP)) D) w
      with ⟨r4, w4, t4⟩
    rw [hd] at hderok hregerr
    dsimp only at hderok hregerr
    subst hderok
    rcases hr : RegisterInstancesWithLoadBalancer lb.Id
        (subtractStringArrays D ((nodesOf w lb.Id).map (fun n => n.IP))) w4
      with ⟨r5, w5, t5⟩
    rw [hr] at hregerr
    dsimp only at hregerr
    subst hregerr
    constructor
    · rw [hrun]
      simp [hd, hr]
    · rw [hrun]
      simp [hd, hr]

/-- Witness for C4 at concrete inputs: an update run, an update whose
deregister phase fails (remote rejecting DELETEs), an update whose register
phase fails (remote rejecting POSTs), a deregister loop failing on its first
address, and a register loop failing on its first address. -/
theorem updateRemoveBeforeAddAndFirstFailureAborts_witness :
    (∃ trA trB, (UpdateTCPLoadBalancer "myLB" ["host1"] w0).2.2 =
        trA ++ trB ∧
      (∀ c ∈ trA, c.isPostNode = false) ∧
      (∀ c ∈ trB, c.isDeleteNode = false)) ∧
    ((UpdateTCPLoadBalancer "myLB" ["host2", "host3"] wD).1 =
        .err .lbDeregisterInstanceError ∧
      (UpdateTCPLoadBalancer "myLB" ["host2", "host3"] wD).2.2 =
        [.getLBs, .getNodes lbA.Id, .getShips] ++
        (DeregisterInstancesFromLoadBalancer lbA.Id
          (subtractStringArrays ((nodesOf wD lbA.Id).map (fun n => n.IP))
            ["5.6.7.8", "9.9.9.9"]) wD).2.2 ∧
      (∀ c ∈ (UpdateTCPLoadBalancer "myLB" ["host2", "host3"] wD).2.2,
        c.isPostNode = false)) ∧
    ((UpdateTCPLoadBalancer "myLB" ["host2", "host3"] wE).1 =
        .err .lbRegisterInstanceError ∧
      (UpdateTCPLoadBalancer "myLB" ["host2", "host3"] wE).2.2 =
        [.getLBs, .getNodes lbA.Id, .getShips] ++
        (DeregisterInstancesFromLoadBalancer lbA.Id
          (subtractStringArrays ((nodesOf wE lbA.Id).map (fun n => n.IP))
            ["5.6.7.8", "9.9.9.9"]) wE).2.2 ++
        (RegisterInstancesWithLoadBalancer lbA.Id
          (subtractStringArrays ["5.6.7.8", "9.9.9.9"]
            ((nodesOf wE lbA.Id).map (fun n => n.IP)))
          (DeregisterInstancesFromLoadBalancer lbA.Id
            (subtractStringArrays ((nodesOf wE lbA.Id).map (fun n => n.IP))
              ["5.6.7.8", "9.9.9.9"]) wE).2.1).2.2) ∧
    (∃ pre bad post, ["1.2.3.4"] = pre ++ bad :: post ∧
      (DeregisterInstancesFromLoadBalancer "lb9" pre w0).1 = .ok () ∧
      (deregisterInstanceFromLoadBalancer "lb9" bad
        (DeregisterInstancesFromLoadBalancer "lb9" pre w0).2.1).1 =
          .err (.loadBalancerNotFound "lb9") ∧
      (DeregisterInstancesFromLoadBalancer "lb9" ["1.2.3.4"] w0).2.2 =
        (DeregisterInstancesFromLoadBalancer "lb9" pre w0).2.2 ++
        (deregisterInstanceFromLoadBalancer "lb9" bad
          (DeregisterInstancesFromLoadBalancer "lb9" pre w0).2.1).2.2) ∧
    (∃ pre bad post, ["1.2.3.4"] = pre ++ bad :: post ∧
      (RegisterInstancesWithLoadBalancer "lb9" pre w0).1 = .ok () ∧
      (registerInstanceWithLoadBalancer "lb9" bad
        (RegisterInstancesWithLoadBalancer "lb9" pre w0).2.1).1 =
          .err .instanceNotFound ∧
      (RegisterInstancesWithLoadBalancer "lb9" ["1.2.3.4"] w0).2.2 =
        (RegisterInstancesWithLoadBalancer "lb9" pre w0).2.2 ++
        (registerInstanceWithLoadBalancer "lb9" bad
          (RegisterInstancesWithLoadBalancer "lb9" pre w0).2.1).2.2) :=
  ⟨updateRemoveBeforeAddAndFirstFailureAborts.1 "myLB" ["host1"] w0,
   (updateRemoveBeforeAddAndFirstFailureAborts.2.1 "myLB" ["host2", "host3"]
     wD lbA ["5.6.7.8", "9.9.9.9"] .lbDeregisterInstanceError rfl rfl).1
     (by decide),
   (updateRemoveBeforeAddAndFirstFailureAborts.2.1 "myLB" ["host2", "host3"]
     wE lbA ["5.6.7.8", "9.9.9.9"] .lbRegisterInstanceError rfl rfl).2
     (by decide) (by decide),
   updateRemoveBeforeAddAndFirstFailureAborts.2.2.1 "lb9" ["1.2.3.4"] w0
     (.loadBalancerNotFound "lb9") rfl,
   updateRemoveBeforeAddAndFirstFailureAborts.2.2.2 "lb9" ["1.2.3.4"] w0
     .instanceNotFound rfl⟩

/-- C2: a successful `UpdateTCPLoadBalancer` DELETEs members for exactly the
addresses in `M − D` and POSTs members for exactly the addresses in `D − M`
(`M` the actual membership addresses, `D` the resolved desired addresses);
an address in `M ∩ D` appears in no member mutation at all. -/
theorem updateSetDifferenceCorrectness (w : World) (name : String)
    (hosts : List String) (lb : ConcertoLoadBalancer) (M D : List String)
    (hlb : w.lbs.find? (fun l => l.Name = name) = some lb)
    (hM : M = (nodesOf w lb.Id).map (fun n => n.IP))
    (hD : resolveAll hosts w.ships = .ok D)
    (hok : (UpdateTCPLoadBalancer name hosts w).1 = .ok ()) :
    (∀ a, a ∈ deletedIPs (UpdateTCPLoadBalancer name hosts w).2.2 ↔
      (a ∈ M ∧ ¬ a ∈ D)) ∧
    (∀ a, a ∈ postedIPs (UpdateTCPLoadBalancer name hosts w).2.2 ↔
      (a ∈ D ∧ ¬ a ∈ M)) ∧
    (∀ a, a ∈ M → a ∈ D →
      ¬ a ∈ deletedIPs (UpdateTCPLoadBalancer name hosts w).2.2 ∧
      ¬ a ∈ postedIPs (UpdateTCPLoadBalancer name hosts w).2.2) := by
  subst hM
  have hrun := update_run w name hosts lb D hlb hD
  rcases hd : DeregisterInstancesFromLoadBalancer lb.Id
      (subtractStringArrays ((nodesOf w lb.Id).map (fun n => n.IP)) D) w
    with ⟨r4, w4, t4⟩
  cases r4 with
  | ok a4 =>
    rcases hr : RegisterInstancesWithLoadBalancer lb.Id
        (subtractStringArrays D ((nodesOf w lb.Id).map (fun n => n.IP))) w4
      with ⟨r5, w5, t5⟩
    rw [hrun] at hok
    simp only [hd, hr] at hok
    cases r5 with
    | ok a5 =>
      have hdel4 : deletedIPs t4 =
          subtractStringArrays ((nodesOf w lb.Id).map (fun n => n.IP)) D := by
        have := dereg_loop_ok_trace lb.Id
          (subtractStringArrays ((nodesOf w lb.Id).map (fun n => n.IP)) D) w
          (by rw [hd])
        rwa [hd] at this
      have hpost4 : postedIPs t4 = [] := by
        have := dereg_loop_no_posts lb.Id
          (subtractStringArrays ((nodesOf w lb.Id).map (fun n => n.IP)) D) w
        rwa [hd] at this
      have hpost5 : postedIPs t5 =
          subtractStringArrays D ((nodesOf w lb.Id).map (fun n => n.IP)) := by
        have := register_loop_ok_trace lb.Id
          (subtractStringArrays D ((nodesOf w lb.Id).map (fun n => n.IP))) w4
          (by rw [hr])
        rwa [hr] at this
      have hdel5 : deletedIPs t5 = [] := by
        have := register_loop_no_deletes lb.Id
          (subtractStringArrays D ((nodesOf w lb.Id).map (fun n => n.IP))) w4
        rwa [hr] at this
      have htr : (UpdateTCPLoadBalancer name hosts w).2.2 =
          [.getLBs, .getNodes lb.Id, .getShips] ++ t4 ++ t5 := by
        rw [hrun]
        simp [hd, hr]
      have hdelTot : deletedIPs (UpdateTCPLoadBalancer name hosts w).2.2 =
          subtractStringArrays ((nodesOf w lb.Id).map (fun n => n.IP)) D := by
        rw [htr, deletedIPs_append, deletedIPs_append, hdel4, hdel5]
        simp [deletedIPs]
      have hpostTot : postedIPs (UpdateTCPLoadBalancer name hosts w).2.2 =
          subtractStringArrays D ((nodesOf w lb.Id).map (fun n => n.IP)) := by
        rw [htr, postedIPs_append, postedIPs_append, hpost4, hpost5]
        simp [postedIPs]
      refine ⟨?_, ?_, ?_⟩
      · intro a
        rw [hdelTot]
        exact mem_subtractStringArrays a _ D
      · intro a
        rw [hpostTot]
        exact mem_subtractStringArrays a D _
      · intro a haM haD
        constructor
        · rw [hdelTot]
          intro hmem
          exact ((mem_subtractStringArrays a _ D).mp hmem).2 haD
        · rw [hpostTot]
          intro hmem
          exact ((mem_subtractStringArrays a D _).mp hmem).2 haM
    | err e => cases hok
    | crash => cases hok
  | err e =>
    rw [hrun] at hok
    simp [hd] at hok
  | crash =>
    rw [hrun] at hok
    simp [hd] at hok

/-- Witness for C2 at a concrete reconciliation: membership
{1.2.3.4, 5.6.7.8}, desired resolves to {5.6.7.8, 9.9.9.9}; 1.2.3.4 is
deleted, 9.9.9.9 is posted, 5.6.7.8 is untouched. -/
theorem updateSetDifferenceCorrectness_witness :
    ("1.2.3.4" ∈ deletedIPs
        (UpdateTCPLoadBalancer "myLB" ["host2", "host3"] wA).2.2 ↔
      ("1.2.3.4" ∈ ["1.2.3.4", "5.6.7.8"] ∧
        ¬ "1.2.3.4" ∈ ["5.6.7.8", "9.9.9.9"])) ∧
    ("9.9.9.9" ∈ postedIPs
        (UpdateTCPLoadBalancer "myLB" ["host2", "host3"] wA).2.2 ↔
      ("9.9.9.9" ∈ ["5.6.7.8", "9.9.9.9"] ∧
        ¬ "9.9.9.9" ∈ ["1.2.3.4", "5.6.7.8"])) ∧
    (¬ "5.6.7.8" ∈ deletedIPs
        (UpdateTCPLoadBalancer "myLB" ["host2", "host3"] wA).2.2 ∧
     ¬ "5.6.7.8" ∈ postedIPs
        (UpdateTCPLoadBalancer "myLB" ["host2", "host3"] wA).2.2) :=
  ⟨(updateSetDifferenceCorrectness wA "myLB" ["host2", "host3"] lbA
      ["1.2.3.4", "5.6.7.8"] ["5.6.7.8", "9.9.9.9"] rfl rfl rfl
      (by decide)).1 "1.2.3.4",
   (updateSetDifferenceCorrectness wA "myLB" ["host2", "host3"] lbA
      ["1.2.3.4", "5.6.7.8"] ["5.6.7.8", "9.9.9.9"] rfl rfl rfl
      (by decide)).2.1 "9.9.9.9",
   (updateSetDifferenceCorrectness wA "myLB" ["host2", "host3"] lbA
      ["1.2.3.4", "5.6.7.8"] ["5.6.7.8", "9.9.9.9"] rfl rfl rfl
      (by decide)).2.2 "5.6.7.8" (by decide) (by decide)⟩

/-- C9: `EnsureTCPLoadBalancerDeleted` on an absent name succeeds with no
mutating remote call; on a present name (under the remote invariant that a
name identifies one id) it issues exactly the listing GET and one DELETE of
that load balancer's id, after which the name lookup no longer finds it. -/
theorem ensureDeletedIdempotent (w : World) (name : String) :
    (w.lbs.find? (fun lb => lb.Name = name) = none →
      (EnsureTCPLoadBalancerDeleted name w).1 = .ok () ∧
      ((EnsureTCPLoadBalancerDeleted name w).2.2).filter
        RemoteCall.isMutating = []) ∧
    (∀ lb, w.lbs.find? (fun l => l.Name = name) = some lb →
      (∀ lb1 ∈ w.lbs, ∀ lb2 ∈ w.lbs, lb1.Name = lb2.Name → lb1.Id = lb2.Id) →
      (EnsureTCPLoadBalancerDeleted name w).1 = .ok () ∧
      (EnsureTCPLoadBalancerDeleted name w).2.2 =
        [RemoteCall.getLBs, RemoteCall.deleteLB lb.Id] ∧
      ((EnsureTCPLoadBalancerDeleted name w).2.1).lbs.find?
        (fun l => l.Name = name) = none) := by
  constructor
  · intro h
    refine ⟨?_, ?_⟩
    · simp [EnsureTCPLoadBalancerDeleted, GetLoadBalancerByName, h]
    · simp [EnsureTCPLoadBalancerDeleted, GetLoadBalancerByName, h,
        RemoteCall.isMutating]
  · intro lb hlb huniq
    have hmem := List.mem_of_find?_eq_some hlb
    have hlbname : lb.Name = name := by simpa using List.find?_some hlb
    refine ⟨?_, ?_, ?_⟩
    · simp [EnsureTCPLoadBalancerDeleted, GetLoadBalancerByName, hlb,
        DeleteLoadBalancerById]
    · simp [EnsureTCPLoadBalancerDeleted, GetLoadBalancerByName, hlb,
        DeleteLoadBalancerById]
    · simp only [EnsureTCPLoadBalancerDeleted, GetLoadBalancerByName, hlb,
        DeleteLoadBalancerById]
      rw [List.find?_eq_none]
      intro x hx
      obtain ⟨hxmem, hxid⟩ := List.mem_filter.mp hx
      simp only [decide_not, Bool.not_eq_true', decide_eq_false_iff_not] at hxid
      simp only [decide_eq_true_eq]
      intro hxname
      exact hxid (huniq x hxmem lb hmem (by rw [hxname, hlbname]))

/-- Witness for C9: deleting an absent name on the populated system, and
deleting the present name `myLB`. -/
theorem ensureDeletedIdempotent_witness :
    ((EnsureTCPLoadBalancerDeleted "nope" wA).1 = .ok () ∧
      ((EnsureTCPLoadBalancerDeleted "nope" wA).2.2).filter
        RemoteCall.isMutating = []) ∧
    ((EnsureTCPLoadBalancerDeleted "myLB" wA).1 = .ok () ∧
      (EnsureTCPLoadBalancerDeleted "myLB" wA).2.2 =
        [RemoteCall.getLBs, RemoteCall.deleteLB lbA.Id] ∧
      ((EnsureTCPLoadBalancerDeleted "myLB" wA).2.1).lbs.find?
        (fun l => l.Name = "myLB") = none) :=
  ⟨(ensureDeletedIdempotent wA "nope").1 rfl,
   (ensureDeletedIdempotent wA "myLB").2 lbA rfl (by decide)⟩

/-- C10: the member record POSTed by a registration carries Go's zero value
`""` as node id and the member's address as its only other field; the
resolved instance's own id is never copied into it. -/
theorem addMemberPostsEmptyNodeId :
    (∀ ci : ConcertoInstance,
      toNode ci = { ID := "", IP := ci.PublicIP }) ∧
    (∀ (lbId ip : String) (w : World) (lbId2 : String)
        (n : ConcertoLoadBalancerNode),
      RemoteCall.postNode lbId2 n ∈
        (registerInstanceWithLoadBalancer lbId ip w).2.2 →
      n.ID = "" ∧ n.IP = ip ∧ lbId2 = lbId) := by
  constructor
  · intro ci
    rfl
  · intro lbId ip w lbId2 n hmem
    rcases registerInstance_trace_shape lbId ip w _ hmem with h | ⟨n2, h2, h3, h4⟩
    · simp at h
    · injection h2 with ha hb
      exact ⟨hb ▸ h3, hb ▸ h4, ha⟩

/-- Witness for C10 at a concrete registration POST. -/
theorem addMemberPostsEmptyNodeId_witness :
    (ConcertoLoadBalancerNode.ID { ID := "", IP := "1.2.3.4" } = "" ∧
      ConcertoLoadBalancerNode.IP { ID := "", IP := "1.2.3.4" } = "1.2.3.4" ∧
      "lb1" = "lb1") :=
  addMemberPostsEmptyNodeId.2 "lb1" "1.2.3.4" wA "lb1"
    { ID := "", IP := "1.2.3.4" } (by decide)

/-- C8: on an absent name with nonempty desired hosts that all resolve (and
a remote accepting every POST), `EnsureTCPLoadBalancer` creates the load
balancer and then registers exactly the resolved addresses, so the new load
balancer's membership equals those addresses; no member is ever deleted. -/
theorem ensureCreateThenPopulate (w : World) (name : String)
    (p : ServicePort) (hosts : List String) (D : List String)
    (habsent : w.lbs.find? (fun l => l.Name = name) = none)
    (hne : hosts ≠ [])
    (hD : resolveAll hosts w.ships = .ok D)
    (h201 : ∀ a b, w.postNodeStatus a b = 201)
    (hfresh : ∀ pr ∈ w.nodes, ¬ pr.1 = toString w.nextId) :
    (EnsureTCPLoadBalancer name none [p] hosts ServiceAffinity.None w).1 =
      .ok (toStatus { Id := toString w.nextId, Name := name, FQDN := name,
                      Port := p.Port, NodePort := p.NodePort,
                      Protocol := "tcp" }) ∧
    (nodesOf (EnsureTCPLoadBalancer name none [p] hosts
        ServiceAffinity.None w).2.1 (toString w.nextId)).map
      (fun n => n.IP) = D ∧
    ∃ t2, (EnsureTCPLoadBalancer name none [p] hosts
        ServiceAffinity.None w).2.2 =
        [.getLBs, .postLB { Id := "", Name := name, FQDN := name,
                            Port := p.Port, NodePort := p.NodePort,
                            Protocol := "tcp" },
          .getShips] ++ t2 ∧
      postedIPs t2 = D ∧
      deletedIPs (EnsureTCPLoadBalancer name none [p] hosts
        ServiceAffinity.None w).2.2 = [] := by
  have hlen : 0 < hosts.length := List.length_pos.mpr hne
  rcases hr5 : RegisterInstancesWithLoadBalancer (toString w.nextId) D
      { w with
          lbs := w.lbs ++ [{ Id := toString w.nextId, Name := name,
                             FQDN := name, Port := p.Port,
                             NodePort := p.NodePort, Protocol := "tcp" }],
          nextId := w.nextId + 1 }
    with ⟨r5, w5, t5⟩
  have hrunR := register_loop_run_ok (toString w.nextId) D
    { w with
        lbs := w.lbs ++ [{ Id := toString w.nextId, Name := name,
                           FQDN := name, Port := p.Port,
                           NodePort := p.NodePort, Protocol := "tcp" }],
        nextId := w.nextId + 1 }
    (by intro a b; exact h201 a b)
    (by
      intro ip hip
      exact resolveAll_ok_mem hosts w.ships D hD ip hip)
  rw [hr5] at hrunR
  have hr5ok : r5 = .ok () := hrunR.1
  subst hr5ok
  have hE : EnsureTCPLoadBalancer name none [p] hosts
      ServiceAffinity.None w =
      (.ok (toStatus { Id := toString w.nextId, Name := name, FQDN := name,
                       Port := p.Port, NodePort := p.NodePort,
                       Protocol := "tcp" }),
        w5,
        [.getLBs, .postLB { Id := "", Name := name, FQDN := name,
                            Port := p.Port, NodePort := p.NodePort,
                            Protocol := "tcp" },
          .getShips] ++ t5) := by
    simp [EnsureTCPLoadBalancer, GetLoadBalancerByName, habsent,
      createTCPLoadBalancer, CreateLoadBalancer, hlen,
      hostsNamesToIPs, GetInstanceList, hD, hr5]
  rw [hE]
  have hnodesW : nodesOf w (toString w.nextId) = [] := by
    simp only [nodesOf]
    rw [List.filter_eq_nil_iff.mpr ?_]
    · rfl
    · intro pr hpr
      simpa using hfresh pr hpr
  refine ⟨rfl, ?_, ⟨t5, rfl, ?_, ?_⟩⟩
  · have := hrunR.2.2.2.2.2
    rw [this]
    have : nodesOf
        { w with
            lbs := w.lbs ++ [{ Id := toString w.nextId, Name := name,
                               FQDN := name, Port := p.Port,
                               NodePort := p.NodePort, Protocol := "tcp" }],
            nextId := w.nextId + 1 } (toString w.nextId) =
        nodesOf w (toString w.nextId) := rfl
    rw [this, hnodesW]
    rfl
  · have := register_loop_ok_trace (toString w.nextId) D
      { w with
          lbs := w.lbs ++ [{ Id := toString w.nextId, Name := name,
                             FQDN := name, Port := p.Port,
                             NodePort := p.NodePort, Protocol := "tcp" }],
          nextId := w.nextId + 1 }
      (by rw [hr5])
    rwa [hr5] at this
  · rw [deletedIPs_append]
    have := register_loop_no_deletes (toString w.nextId) D
      { w with
          lbs := w.lbs ++ [{ Id := toString w.nextId, Name := name,
                             FQDN := name, Port := p.Port,
                             NodePort := p.NodePort, Protocol := "tcp" }],
          nextId := w.nextId + 1 }
    rw [hr5] at this
    rw [this]
    rfl

/-- Witness for C8: creating `newLB` with desired host `host1` on a system
where it does not exist yields membership `["1.2.3.4"]`. -/
theorem ensureCreateThenPopulate_witness :
    (EnsureTCPLoadBalancer "newLB" none [{ Port := 80, NodePort := 30080 }]
        ["host1"] ServiceAffinity.None wB).1 =
      .ok (toStatus { Id := toString wB.nextId, Name := "newLB",
                      FQDN := "newLB", Port := 80, NodePort := 30080,
                      Protocol := "tcp" }) ∧
    (nodesOf (EnsureTCPLoadBalancer "newLB" none
        [{ Port := 80, NodePort := 30080 }] ["host1"]
        ServiceAffinity.None wB).2.1 (toString wB.nextId)).map
      (fun n => n.IP) = ["1.2.3.4"] ∧
    ∃ t2, (EnsureTCPLoadBalancer "newLB" none
        [{ Port := 80, NodePort := 30080 }] ["host1"]
        ServiceAffinity.None wB).2.2 =
        [.getLBs, .postLB { Id := "", Name := "newLB", FQDN := "newLB",
                            Port := 80, NodePort := 30080,
                            Protocol := "tcp" },
          .getShips] ++ t2 ∧
      postedIPs t2 = ["1.2.3.4"] ∧
      deletedIPs (EnsureTCPLoadBalancer "newLB" none
        [{ Port := 80, NodePort := 30080 }] ["host1"]
        ServiceAffinity.None wB).2.2 = [] :=
  ensureCreateThenPopulate wB "newLB" { Port := 80, NodePort := 30080 }
    ["host1"] ["1.2.3.4"] rfl (by decide) rfl (fun a b => rfl) (by decide)

/-- C3: with the load balancer present, all hosts resolving, the remote
accepting every mutation, and a duplicate-free membership, one
`UpdateTCPLoadBalancer` makes the membership equal (as a set of addresses)
the resolved desired set `D`; a second update with the same hosts succeeds,
leaves the membership at `D`, and issues zero mutating remote calls. -/
theorem updateIdempotent (w : World) (name : String) (hosts : List String)
    (lb : ConcertoLoadBalancer) (D : List String)
    (hlb : w.lbs.find? (fun l => l.Name = name) = some lb)
    (hD : resolveAll hosts w.ships = .ok D)
    (h201 : ∀ a b, w.postNodeStatus a b = 201)
    (h204 : ∀ a b, w.deleteNodeStatus a b = 204)
    (hIPnd : ((nodesOf w lb.Id).map (fun n => n.IP)).Nodup)
    (hIDnd : ((nodesOf w lb.Id).map (fun n => n.ID)).Nodup) :
    (UpdateTCPLoadBalancer name hosts w).1 = .ok () ∧
    (∀ a, a ∈ (nodesOf (UpdateTCPLoadBalancer name hosts w).2.1 lb.Id).map
        (fun n => n.IP) ↔ a ∈ D) ∧
    (UpdateTCPLoadBalancer name hosts
      (UpdateTCPLoadBalancer name hosts w).2.1).1 = .ok () ∧
    (∀ a, a ∈ (nodesOf (UpdateTCPLoadBalancer name hosts
        (UpdateTCPLoadBalancer name hosts w).2.1).2.1 lb.Id).map
        (fun n => n.IP) ↔ a ∈ D) ∧
    ((UpdateTCPLoadBalancer name hosts
      (UpdateTCPLoadBalancer name hosts w).2.1).2.2).filter
      RemoteCall.isMutating = [] := by
  have hex : lbExists w lb.Id = true := by
    simp only [lbExists, List.any_eq_true]
    exact ⟨lb, List.mem_of_find?_eq_some hlb, by simp⟩
  have hrun := update_run w name hosts lb D hlb hD
  have hderegRun := dereg_loop_run_ok lb.Id
    (subtractStringArrays ((nodesOf w lb.Id).map (fun n => n.IP)) D) w
    h204 hex
    (by
      intro ip hip
      exact ((mem_subtractStringArrays ip _ D).mp hip).1)
    (by
      rw [subtractStringArrays]
      exact hIPnd.filter _)
    hIPnd hIDnd
  rcases hd : DeregisterInstancesFromLoadBalancer lb.Id
      (subtractStringArrays ((nodesOf w lb.Id).map (fun n => n.IP)) D) w
    with ⟨r4, w4, t4⟩
  rw [hd] at hderegRun
  dsimp only at hderegRun
  obtain ⟨hr4ok, hships4, hlbs4, hpost4, hdel4, hN4raw⟩ := hderegRun
  subst hr4ok
  have hN4 : nodesOf w4 lb.Id =
      (nodesOf w lb.Id).filter (fun n => n.IP ∈ D) := by
    rw [hN4raw]
    apply List.filter_congr
    intro n hn
    have hnM : n.IP ∈ (nodesOf w lb.Id).map (fun x => x.IP) :=
      List.mem_map_of_mem _ hn
    by_cases hd2 : n.IP ∈ D <;>
      simp [subtractStringArrays, List.mem_filter, hd2, hnM]
  have hregRun := register_loop_run_ok lb.Id
    (subtractStringArrays D ((nodesOf w lb.Id).map (fun n => n.IP))) w4
    (by
      intro a b
      rw [hpost4]
      exact h201 a b)
    (by
      intro ip hip
      rw [hships4]
      exact resolveAll_ok_mem hosts w.ships D hD ip
        ((mem_subtractStringArrays ip D _).mp hip).1)
  rcases hr : RegisterInstancesWithLoadBalancer lb.Id
      (subtractStringArrays D ((nodesOf w lb.Id).map (fun n => n.IP))) w4
    with ⟨r5, w5, t5⟩
  rw [hr] at hregRun
  dsimp only at hregRun
  obtain ⟨hr5ok, hships5, hlbs5, hpost5, hdel5, hN5⟩ := hregRun
  subst hr5ok
  have hU1 : UpdateTCPLoadBalancer name hosts w =
      (.ok (), w5, [.getLBs, .getNodes lb.Id, .getShips] ++ t4 ++ t5) := by
    rw [hrun]
    simp [hd, hr]
  have hSet1 : ∀ a, a ∈ (nodesOf w5 lb.Id).map (fun n => n.IP) ↔ a ∈ D := by
    intro a
    rw [hN5, hN4]
    constructor
    · intro hmem
      rcases List.mem_append.mp hmem with h1 | h1
      · obtain ⟨n, hn, hnip⟩ := List.mem_map.mp h1
        obtain ⟨hnmem, hnD⟩ := List.mem_filter.mp hn
        rw [← hnip]
        simpa using hnD
      · exact ((mem_subtractStringArrays a D _).mp h1).1
    · intro haD
      by_cases haM : a ∈ (nodesOf w lb.Id).map (fun n => n.IP)
      · apply List.mem_append.mpr
        left
        obtain ⟨n, hn, hnip⟩ := List.mem_map.mp haM
        exact List.mem_map.mpr ⟨n, List.mem_filter.mpr
          ⟨hn, by simp [hnip, haD]⟩, hnip⟩
      · apply List.mem_append.mpr
        right
        exact (mem_subtractStringArrays a D _).mpr ⟨haD, haM⟩
  have hlb5 : w5.lbs.find? (fun l => l.Name = name) = some lb := by
    rw [hlbs5, hlbs4]
    exact hlb
  have hD5 : resolveAll hosts w5.ships = .ok D := by
    rw [hships5, hships4]
    exact hD
  have hrun2 := update_run w5 name hosts lb D hlb5 hD5
  have hRem5 : subtractStringArrays
      ((nodesOf w5 lb.Id).map (fun n => n.IP)) D = [] := by
    rw [subtractStringArrays, List.filter_eq_nil_iff]
    intro a ha
    simp [(hSet1 a).mp ha]
  have hAdd5 : subtractStringArrays D
      ((nodesOf w5 lb.Id).map (fun n => n.IP)) = [] := by
    rw [subtractStringArrays, List.filter_eq_nil_iff]
    intro a ha
    simp [(hSet1 a).mpr ha]
  have hU2 : UpdateTCPLoadBalancer name hosts w5 =
      (.ok (), w5, [.getLBs, .getNodes lb.Id, .getShips]) := by
    rw [hrun2]
    simp only [hRem5, hAdd5]
    rfl
  refine ⟨?_, ?_, ?_, ?_, ?_⟩
  · rw [hU1]
  · intro a
    rw [hU1]
    exact hSet1 a
  · rw [hU1]
    dsimp only
    rw [hU2]
  · intro a
    rw [hU1]
    dsimp only
    rw [hU2]
    exact hSet1 a
  · rw [hU1]
    dsimp only
    rw [hU2]
    rfl

/-- Witness for C3 at the concrete reconciliation of `wA`. -/
theorem updateIdempotent_witness :
    (UpdateTCPLoadBalancer "myLB" ["host2", "host3"] wA).1 = .ok () ∧
    (∀ a, a ∈ (nodesOf (UpdateTCPLoadBalancer "myLB" ["host2", "host3"]
        wA).2.1 lbA.Id).map (fun n => n.IP) ↔
      a ∈ ["5.6.7.8", "9.9.9.9"]) ∧
    (UpdateTCPLoadBalancer "myLB" ["host2", "host3"]
      (UpdateTCPLoadBalancer "myLB" ["host2", "host3"] wA).2.1).1 =
        .ok () ∧
    (∀ a, a ∈ (nodesOf (UpdateTCPLoadBalancer "myLB" ["host2", "host3"]
        (UpdateTCPLoadBalancer "myLB" ["host2", "host3"] wA).2.1).2.1
        lbA.Id).map (fun n => n.IP) ↔ a ∈ ["5.6.7.8", "9.9.9.9"]) ∧
    ((UpdateTCPLoadBalancer "myLB" ["host2", "host3"]
      (UpdateTCPLoadBalancer "myLB" ["host2", "host3"] wA).2.1).2.2).filter
      RemoteCall.isMutating = [] :=
  updateIdempotent wA "myLB" ["host2", "host3"] lbA ["5.6.7.8", "9.9.9.9"]
    rfl rfl (fun a b => rfl) (fun a b => rfl) (by decide) (by decide)

end Concerto
